import Mathlib

/-!
# Conway's Game of Life (`game_of_life.go`)

A shallow embedding of the Go program and theorems about it.

Modelling conventions
* `[][]bool` is `List (List Bool)`; `len` is `List.length` seen as an `Int`.
* Go `int` is `Int`.  The only arithmetic of the program is `x ± 1`, `y ± 1`
  in `matrixCountNearAlive`; `matrixCountNearAlive64` repeats that function
  with 64-bit wrap-around and `matrixCountNearAlive64_eq` shows that the two
  agree on every grid a Go program can hold.
* A slice access `xs[i]` panics when `i` is out of range; reads and writes are
  `index` and `assign`, which return `Except GoError`.  So does `rand.Intn`
  with a non-positive bound.
* `make` with an `int` length is `makeSlice`: it panics on a length that is
  negative or too large, and needs memory from the runtime, which is a
  parameter (`Runtime`).  The step `matrixNewGen` makes slices of the lengths
  of slices it was given; `makeBools` and `makeRows` take those lengths.
* `for i := range xs` is `forRange (len xs)`, a left fold over `0 .. len xs - 1`
  that stops at the first failure; `forEach` is the same loop over any list of
  indices.
* The random source is a parameter: `draws k` is what the source yields at the
  call number `k` of `RandBool`.
* Standard output is the list of the strings written, one per call of
  `fmt.Print` and `fmt.Printf`; the pause between frames is not modelled.
-/

namespace GameOfLife

/-! ## Go values and statements -/

/-- Run-time failures of the Go program.  Three are panics: a slice index out
of range, `make` with a length out of range, `rand.Intn` with a non-positive
bound.  The last is the fatal error of a runtime that has no memory left. -/
inductive GoError where
  | indexOutOfRange
  | makeLenOutOfRange
  | intnInvalidArgument
  | outOfMemory
  deriving DecidableEq, Repr

instance instDecidableEqExcept {ε α : Type} [DecidableEq ε] [DecidableEq α] :
    DecidableEq (Except ε α)
  | .ok a, .ok b =>
    if h : a = b then isTrue (by rw [h]) else isFalse (fun h' => h (Except.ok.inj h'))
  | .error a, .error b =>
    if h : a = b then isTrue (by rw [h]) else isFalse (fun h' => h (Except.error.inj h'))
  | .ok _, .error _ => isFalse (fun h => Except.noConfusion h)
  | .error _, .ok _ => isFalse (fun h => Except.noConfusion h)

/-- The grid type `[][]bool`. -/
abbrev Matrix := List (List Bool)

/-- Go's `len(xs)`. -/
def len {α : Type} (xs : List α) : Int := (xs.length : Int)

/-- Go's read `xs[i]`: fails when `i` is negative or not below `len(xs)`. -/
def index {α : Type} (xs : List α) (i : Int) : Except GoError α :=
  if 0 ≤ i then
    match xs[i.toNat]? with
    | some v => .ok v
    | none => .error .indexOutOfRange
  else .error .indexOutOfRange

/-- Go's write `xs[i] = v`: fails when `i` is negative or not below `len(xs)`. -/
def assign {α : Type} (xs : List α) (i : Int) (v : α) : Except GoError (List α) :=
  if 0 ≤ i ∧ i < len xs then .ok (xs.set i.toNat v) else .error .indexOutOfRange

/-- Go's `matrix[i][j]`, two slice reads. -/
def index2 (G : Matrix) (i j : Int) : Except GoError Bool :=
  index G i >>= fun row => index row j

/-- Go's `make([]bool, n)`: `n` cells holding the zero value `false`. -/
def makeBools (n : Nat) : List Bool := List.replicate n false

/-- Go's `make([][]bool, n)`: `n` rows holding the zero value, the nil slice. -/
def makeRows (n : Nat) : Matrix := List.replicate n []

/-- Go's `for i := range xs { body }` over `n = len(xs)` indices, threading the
state `s` and stopping at the first failure. -/
def forRange {σ : Type} (n : Nat) (body : Nat → σ → Except GoError σ) (s : σ) :
    Except GoError σ :=
  (List.range n).foldlM (fun s i => body i s) s

/-- Go's 64-bit `int` arithmetic: the result of `+` and `-` wraps around. -/
def wrapInt64 (n : Int) : Int :=
  (n + 2 ^ 63) % 2 ^ 64 - 2 ^ 63

/-- What the program cannot control of the Go runtime it runs on: `maxAlloc`,
the largest number of bytes one allocation may ask for (`2^48` on 64-bit
Linux), and `grants call bytes`, whether the runtime has the memory for the
allocation number `call`, of `bytes` bytes. -/
structure Runtime where
  maxAlloc : Nat
  grants : Nat → Nat → Bool

/-- The size in bytes of a `bool`. -/
def boolBytes : Nat := 1

/-- The size in bytes of a slice value such as `[]bool`, on a 64-bit platform. -/
def sliceBytes : Nat := 24

/-- Go's `make([]T, n)` for an `int` length `n` and elements of `elemSize`
bytes, as the allocation number `call`.  As in `runtime.makeslice`, it panics
when `n` is negative, when `elemSize * n` overflows a 64-bit word or when it
exceeds `maxAlloc`; otherwise it returns `n` cells holding the zero value of
`T`, unless the runtime is out of memory. -/
def makeSlice {α : Type} (rt : Runtime) (call elemSize : Nat) (n : Int) (zero : α) :
    Except GoError (List α) :=
  if n < 0 then .error .makeLenOutOfRange
  else if 2 ^ 64 ≤ elemSize * n.toNat ∨ rt.maxAlloc < elemSize * n.toNat then
    .error .makeLenOutOfRange
  else if rt.grants call (elemSize * n.toNat) = true then .ok (List.replicate n.toNat zero)
  else .error .outOfMemory

/-- The library call `rand.Intn(n)` on a freshly seeded source: it fails for
`n <= 0` and otherwise returns an element of `[0, n)`.  The value `raw` stands
for what the source yields at this call (it is seeded with the clock); every
outcome in `[0, n)` is `raw % n` for some `raw`. -/
def randIntn (n : Int) (raw : Nat) : Except GoError Int :=
  if n ≤ 0 then .error .intnInvalidArgument else .ok ((raw : Int) % n)

/-- A loop that runs `body` once for each index of `order`, in that order,
threading the state and stopping at the first failure; `forRange n` is
`forEach (List.range n)`. -/
def forEach {σ : Type} (order : List Nat) (body : Nat → σ → Except GoError σ) (s : σ) :
    Except GoError σ :=
  order.foldlM (fun s i => body i s) s

/-! ## The program -/

/-- Source: `matrixAt`.  The `&&` chain short-circuits, so `matrix[x]` is read
only after `x >= 0 && y >= 0 && len(matrix) > x` held, and `matrix[x][y]` only
after `len(matrix[x]) > y` held too. -/
def matrixAt (matrix : Matrix) (x y : Int) : Except GoError Bool :=
  if x ≥ 0 ∧ y ≥ 0 ∧ len matrix > x then do
    let row ← index matrix x
    if len row > y then do
      let row ← index matrix x
      index row y
    else pure false
  else pure false

/-- The counting loop of `matrixCountNearAlive` over the array `a_cells`. -/
def countAlive (a_cells : List Bool) : Int :=
  a_cells.foldl (fun ok_cells c => if c = true then ok_cells + 1 else ok_cells) 0

/-- Source: `matrixCountNearAlive`. -/
def matrixCountNearAlive (matrix : Matrix) (x y : Int) : Except GoError Int := do
  let c0 ← matrixAt matrix (x - 1) (y - 1)
  let c1 ← matrixAt matrix (x - 1) y
  let c2 ← matrixAt matrix (x - 1) (y + 1)
  let c3 ← matrixAt matrix x (y - 1)
  let c4 ← matrixAt matrix x (y + 1)
  let c5 ← matrixAt matrix (x + 1) (y - 1)
  let c6 ← matrixAt matrix (x + 1) y
  let c7 ← matrixAt matrix (x + 1) (y + 1)
  pure (countAlive [c0, c1, c2, c3, c4, c5, c6, c7])

/-- Source: `matrixCountNearAlive`, with the wrap-around of 64-bit `int`. -/
def matrixCountNearAlive64 (matrix : Matrix) (x y : Int) : Except GoError Int := do
  let c0 ← matrixAt matrix (wrapInt64 (x - 1)) (wrapInt64 (y - 1))
  let c1 ← matrixAt matrix (wrapInt64 (x - 1)) y
  let c2 ← matrixAt matrix (wrapInt64 (x - 1)) (wrapInt64 (y + 1))
  let c3 ← matrixAt matrix x (wrapInt64 (y - 1))
  let c4 ← matrixAt matrix x (wrapInt64 (y + 1))
  let c5 ← matrixAt matrix (wrapInt64 (x + 1)) (wrapInt64 (y - 1))
  let c6 ← matrixAt matrix (wrapInt64 (x + 1)) y
  let c7 ← matrixAt matrix (wrapInt64 (x + 1)) (wrapInt64 (y + 1))
  pure (countAlive [c0, c1, c2, c3, c4, c5, c6, c7])

/-- Source: `cellWillLive`. -/
def cellWillLive (alive : Bool) (num_alive : Int) : Bool :=
  let survives := alive && (num_alive == 2 || num_alive == 3)
  let reproduces := !alive && num_alive == 3
  if survives || reproduces then true else false

/-- The body of the inner loop of `matrixNewGen`, at row `i` and column `j`;
the state is the output grid `matrix2`. -/
def newGenCell (matrix : Matrix) (i j : Nat) (matrix2 : Matrix) : Except GoError Matrix := do
  let num_alive ← matrixCountNearAlive matrix i j
  let row ← index matrix i
  let alive ← index row j
  let will_live := cellWillLive alive num_alive
  let row2 ← index matrix2 i
  let row2 ← assign row2 j will_live
  assign matrix2 i row2

/-- The body of the outer loop of `matrixNewGen`, at row `i`. -/
def newGenRow (matrix : Matrix) (i : Nat) (matrix2 : Matrix) : Except GoError Matrix := do
  let row0 ← index matrix 0
  let matrix2 ← assign matrix2 i (makeBools row0.length)
  let row ← index matrix i
  forRange row.length (newGenCell matrix i) matrix2

/-- Source: `matrixNewGen`. -/
def matrixNewGen (matrix : Matrix) : Except GoError Matrix :=
  forRange matrix.length (newGenRow matrix) (makeRows matrix.length)

/-- Running `matrixNewGen` `n` times in a row, as the driver loop does. -/
def newGenTimes : Nat → Matrix → Except GoError Matrix
  | 0, G => .ok G
  | n + 1, G => matrixNewGen G >>= newGenTimes n

/-- Source: `cellRender`. -/
def cellRender (is_alive : Bool) : String :=
  if is_alive then "#" else "."

/-- Source: `gridRender`. -/
def gridRender (matrix : Matrix) : String :=
  matrix.foldl
    (fun str row => row.foldl (fun str is_alive => str ++ cellRender is_alive) str ++ "\n") ""

/-- Source: `RandBool`; `raw` is the outcome of the random source at this call. -/
def RandBool (max : Int) (raw : Nat) : Except GoError Bool := do
  let r ← randIntn max raw
  pure (r == 1)

/-- The body of the first loop of `matrixMake`: `matrix[i] = make([]bool, w)`,
the allocation number `i + 1` of `matrixMake`. -/
def matrixMakeAlloc (rt : Runtime) (w : Int) (i : Nat) (matrix : Matrix) :
    Except GoError Matrix := do
  let row ← makeSlice rt (i + 1) boolBytes w false
  assign matrix i row

/-- The body of the inner init loop of `matrixMake`: `matrix[i][j] = RandBool(3)`.
The state is the grid and the number of calls to `RandBool` made so far; the
call number `k` gets the outcome `draws k`. -/
def matrixMakeCell (draws : Nat → Nat) (i j : Nat) (st : Matrix × Nat) :
    Except GoError (Matrix × Nat) := do
  let b ← RandBool 3 (draws st.2)
  let row ← index st.1 i
  let row ← assign row j b
  let matrix ← assign st.1 i row
  pure (matrix, st.2 + 1)

/-- The body of the outer init loop of `matrixMake`. -/
def matrixMakeRow (draws : Nat → Nat) (i : Nat) (st : Matrix × Nat) :
    Except GoError (Matrix × Nat) := do
  let row ← index st.1 i
  forRange row.length (matrixMakeCell draws i) st

/-- Source: `matrixMake`, as a function of the runtime `rt` and of the outcomes
`draws` of the random source. -/
def matrixMake (rt : Runtime) (h w : Int) (draws : Nat → Nat) : Except GoError Matrix := do
  let matrix ← makeSlice rt 0 sliceBytes h ([] : List Bool)
  let matrix ← forRange matrix.length (matrixMakeAlloc rt w) matrix
  let st ← forRange matrix.length (matrixMakeRow draws) (matrix, 0)
  pure st.1

/-- The line `fmt.Printf("generation %d of 300 \n", i)` writes. -/
def generationLine (i : Nat) : String :=
  "generation " ++ toString i ++ " of 300 \n"

/-- The body of the loop of `main`, round `i`.  The state is the grid and the
strings written to standard output so far, one per call of `fmt.Print` and
`fmt.Printf`; `gridClear` does nothing and the pause writes nothing. -/
def mainStep (i : Nat) (st : Matrix × List String) : Except GoError (Matrix × List String) := do
  let matrix ← matrixNewGen st.1
  let s_grid := gridRender matrix
  pure (matrix, st.2 ++ [s_grid, generationLine i])

/-- The loop of `main` from the initial grid `matrix`, with `rounds` for the
bound of `for i := 0; i < 300; i++`: what it writes. -/
def mainLoop (rounds : Nat) (matrix : Matrix) : Except GoError (List String) := do
  let st ← forRange rounds mainStep (matrix, [])
  pure st.2

/-- The loop of `main` from the initial grid `matrix`: 300 rounds. -/
def mainFrom (matrix : Matrix) : Except GoError (List String) :=
  mainLoop 300 matrix

/-- Source: `main`, as a function of the runtime `rt` and of the outcomes `draws`
of the random source. -/
def main (rt : Runtime) (draws : Nat → Nat) : Except GoError (List String) := do
  let matrix ← matrixMake rt 10 20 draws
  mainFrom matrix

/-- The body of the outer loop of `matrixNewGen`, with the inner loop visiting
the columns in the order `colOrder n`, where `n` is the length of the row. -/
def newGenRowIn (colOrder : Nat → List Nat) (matrix : Matrix) (i : Nat) (matrix2 : Matrix) :
    Except GoError Matrix := do
  let row0 ← index matrix 0
  let matrix2 ← assign matrix2 i (makeBools row0.length)
  let row ← index matrix i
  forEach (colOrder row.length) (newGenCell matrix i) matrix2

/-- The code of `matrixNewGen` with its loops visiting the rows in the order
`rowOrder (len matrix)` and the columns of row `i` in the order
`colOrder i (len matrix[i])`; with `List.range` for both it is `matrixNewGen`. -/
def matrixNewGenIn (rowOrder : Nat → List Nat) (colOrder : Nat → Nat → List Nat)
    (matrix : Matrix) : Except GoError Matrix :=
  forEach (rowOrder matrix.length) (fun i => newGenRowIn (colOrder i) matrix i)
    (makeRows matrix.length)

/-! ## Vocabulary of the specification -/

/-- A grid with `H` rows, each of `W` cells. -/
def Rect (G : Matrix) (H W : Nat) : Prop :=
  G.length = H ∧ ∀ row ∈ G, row.length = W

instance (G : Matrix) (H W : Nat) : Decidable (Rect G H W) := by
  unfold Rect; infer_instance

/-- Spec: the position `(x, y)` is inside the `H`-by-`W` grid. -/
def inGrid (H W : Nat) (x y : Int) : Prop :=
  0 ≤ x ∧ x < H ∧ 0 ≤ y ∧ y < W

instance (H W : Nat) (x y : Int) : Decidable (inGrid H W x y) := by
  unfold inGrid; infer_instance

/-- Spec: the grid stores a live cell at row `x`, column `y`. -/
def aliveAt (G : Matrix) (x y : Int) : Prop :=
  (G[x.toNat]?.bind fun row => row[y.toNat]?) = some true

instance (G : Matrix) (x y : Int) : Decidable (aliveAt G x y) := by
  unfold aliveAt; infer_instance

/-- Spec: the offsets `(dx, dy)` in `{-1,0,1} x {-1,0,1}` other than `(0,0)`. -/
def neighbourOffsets : List (Int × Int) :=
  (List.product [-1, 0, 1] [-1, 0, 1]).filter fun d => decide (d ≠ (0, 0))

/-- Spec: the number of offsets whose position is inside the grid and alive. -/
def specNearAlive (G : Matrix) (H W : Nat) (x y : Int) : Nat :=
  (neighbourOffsets.filter fun d =>
    decide (inGrid H W (x + d.1) (y + d.2) ∧ aliveAt G (x + d.1) (y + d.2))).length

/-- Spec: the number of the 8 adjacent positions that lie inside the grid. -/
def specNearInGrid (H W : Nat) (x y : Int) : Nat :=
  (neighbourOffsets.filter fun d => decide (inGrid H W (x + d.1) (y + d.2))).length

/-- Spec: the grid has exactly one live cell, at the in-bounds position `(r, c)`. -/
def OnlyLiveAt (G : Matrix) (H W r c : Nat) : Prop :=
  (r < H ∧ c < W) ∧ ∀ i, i < H → ∀ j, j < W → (aliveAt G i j ↔ i = r ∧ j = c)

instance (G : Matrix) (H W r c : Nat) : Decidable (OnlyLiveAt G H W r c) := by
  unfold OnlyLiveAt; infer_instance

/-- Spec: the glyph of a cell, `#` if it is alive and `.` if it is dead. -/
def glyph (is_alive : Bool) : Char :=
  if is_alive then '#' else '.'

/-- Spec: the line of a row, its glyphs followed by one newline character. -/
def renderLine (row : List Bool) : List Char :=
  row.map glyph ++ ['\n']

/-- The 3-by-3 grid whose only live cell is the centre. -/
def centreGrid : Matrix :=
  [[false, false, false], [false, true, false], [false, false, false]]

/-- The 3-by-3 grid whose live cells are (0,1), (1,0) and (1,1). -/
def lGrid : Matrix :=
  [[false, true, false], [true, true, false], [false, false, false]]

/-- The grid the L-shaped grid turns into: the 2-by-2 block at the top left. -/
def blockGrid : Matrix :=
  [[true, true, false], [true, true, false], [false, false, false]]

/-- Spec: `make` can allocate `n` elements of `elemSize` bytes as the allocation
number `call`: the size fits a 64-bit word, does not exceed `maxAlloc`, and
the runtime has the memory. -/
def CanMake (rt : Runtime) (call elemSize : Nat) (n : Int) : Prop :=
  elemSize * n.toNat < 2 ^ 64 ∧ elemSize * n.toNat ≤ rt.maxAlloc ∧
    rt.grants call (elemSize * n.toNat) = true

instance (rt : Runtime) (call elemSize : Nat) (n : Int) :
    Decidable (CanMake rt call elemSize n) := by
  unfold CanMake; infer_instance

/-- A 64-bit Linux runtime that has the memory for every allocation. -/
def linuxRuntime : Runtime :=
  ⟨2 ^ 48, fun _ _ => true⟩

/-- A 2-by-3 grid. -/
def wideGrid : Matrix :=
  [[true, false, true], [false, true, true]]

/-- Spec: the offsets `(dx, dy)` with `dx` and `dy` in `{-1,0,1}`. -/
def blockOffsets : List (Int × Int) :=
  List.product [-1, 0, 1] [-1, 0, 1]

/-- Spec: the live cells of the grid are exactly the in-bounds positions `(i, j)`
with `P i j`. -/
def LiveExactly (G : Matrix) (H W : Nat) (P : Int → Int → Prop) : Prop :=
  ∀ i, i < H → ∀ j, j < W → (aliveAt G (i : Nat) (j : Nat) ↔ P (i : Nat) (j : Nat))

instance (G : Matrix) (H W : Nat) (P : Int → Int → Prop) [∀ a b, Decidable (P a b)] :
    Decidable (LiveExactly G H W P) := by
  unfold LiveExactly; infer_instance

/-- Spec: the three cells `(r, c-1)`, `(r, c)`, `(r, c+1)` of a horizontal blinker. -/
def blinkerRow (r c : Nat) (i j : Int) : Prop :=
  (i = r ∧ j = c - 1) ∨ (i = r ∧ j = c) ∨ (i = r ∧ j = c + 1)

instance (r c : Nat) (i j : Int) : Decidable (blinkerRow r c i j) := by
  unfold blinkerRow; infer_instance

/-- Spec: the three cells `(r-1, c)`, `(r, c)`, `(r+1, c)` of a vertical blinker. -/
def blinkerCol (r c : Nat) (i j : Int) : Prop :=
  (i = r - 1 ∧ j = c) ∨ (i = r ∧ j = c) ∨ (i = r + 1 ∧ j = c)

instance (r c : Nat) (i j : Int) : Decidable (blinkerCol r c i j) := by
  unfold blinkerCol; infer_instance

/-- Spec: the four cells `(r, c)`, `(r, c+1)`, `(r+1, c)`, `(r+1, c+1)` of a block. -/
def blockCells (r c : Nat) (i j : Int) : Prop :=
  (i = r ∧ j = c) ∨ (i = r ∧ j = c + 1) ∨ (i = r + 1 ∧ j = c) ∨ (i = r + 1 ∧ j = c + 1)

instance (r c : Nat) (i j : Int) : Decidable (blockCells r c i j) := by
  unfold blockCells; infer_instance

/-- A 4-by-4 grid with one live cell in the top-left corner. -/
def cornerGrid : Matrix :=
  [[true, false, false, false], [false, false, false, false],
   [false, false, false, false], [false, false, false, false]]

/-- The same grid with one more live cell, in the bottom-right corner. -/
def cornersGrid : Matrix :=
  [[true, false, false, false], [false, false, false, false],
   [false, false, false, false], [false, false, false, true]]

/-- A 5-by-5 grid holding a horizontal blinker around `(2, 2)`. -/
def blinkerGrid : Matrix :=
  [[false, false, false, false, false], [false, false, false, false, false],
   [false, true, true, true, false], [false, false, false, false, false],
   [false, false, false, false, false]]

/-! ## Closed forms of the program's results, used in the proofs -/

/-- The cell the program sees at `(x, y)`: the stored value when the coordinate
is in range, dead otherwise. -/
def cell (G : Matrix) (x y : Int) : Bool :=
  decide (0 ≤ x) && decide (0 ≤ y) && ((G[x.toNat]?.getD [])[y.toNat]?.getD false)

/-- The eight cells around `(x, y)`, in the order of `a_cells`. -/
def nearCells (G : Matrix) (x y : Int) : List Bool :=
  [cell G (x - 1) (y - 1), cell G (x - 1) y, cell G (x - 1) (y + 1),
   cell G x (y - 1), cell G x (y + 1),
   cell G (x + 1) (y - 1), cell G (x + 1) y, cell G (x + 1) (y + 1)]

/-- The next state of the cell `(i, j)`, read from the grid `G` alone. -/
def nextCell (G : Matrix) (i j : Nat) : Bool :=
  cellWillLive (cell G i j) (countAlive (nearCells G i j))

/-- No row of the grid is longer than row 0: the condition under which every
write of `matrixNewGen` is in range. -/
def RowsFit (G : Matrix) : Prop :=
  ∀ i : Nat, (G[i]?.getD []).length ≤ (G[0]?.getD []).length

/-- The output row `i` of `matrixNewGen`: one next state per cell of the input
row, in a row allocated with the length of row 0. -/
def nextRow (G : Matrix) (i : Nat) : List Bool :=
  (List.range (G[i]?.getD []).length).map (nextCell G i)
    ++ List.replicate ((G[0]?.getD []).length - (G[i]?.getD []).length) false

/-- The next generation of an `H`-by-`W` grid, cell by cell. -/
def nextGrid (G : Matrix) (H W : Nat) : Matrix :=
  (List.range H).map fun i => (List.range W).map fun j => nextCell G i j

/-- The cell `(i, j)` of the grid made from the outcomes `draws`, `W` cells a row. -/
def madeCell (draws : Nat → Nat) (W i j : Nat) : Bool :=
  decide ((draws (i * W + j) : Int) % 3 = 1)

/-- The grid made from the outcomes `draws`, cell by cell. -/
def madeGrid (draws : Nat → Nat) (H W : Nat) : Matrix :=
  (List.range H).map fun i => (List.range W).map fun j => madeCell draws W i j

/-- The grid after `n` generations, for an `H`-by-`W` grid `G`, cell by cell. -/
def nextGridTimes (H W : Nat) (n : Nat) (G : Matrix) : Matrix :=
  (fun G => nextGrid G H W)^[n] G

/-- The indicator of a cell: 1 if it is alive, 0 if it is dead. -/
def ind (b : Bool) : Nat := if b = true then 1 else 0

/-! ## Slice reads and writes -/

theorem index_natCast {α : Type} (xs : List α) (n : Nat) (h : n < xs.length) :
    index xs (n : Int) = .ok (xs.get ⟨n, h⟩) := by
  simp [index, List.getElem?_eq_getElem h]

theorem index_of_lt {α : Type} (xs : List α) (i : Int) (h0 : 0 ≤ i) (h1 : i < len xs) :
    ∃ v, index xs i = .ok v ∧ xs[i.toNat]? = some v := by
  have hlt : i.toNat < xs.length := by unfold len at h1; omega
  refine ⟨xs.get ⟨i.toNat, hlt⟩, ?_, by simp [List.getElem?_eq_getElem hlt]⟩
  simp [index, h0, List.getElem?_eq_getElem hlt]

theorem index_error {α : Type} (xs : List α) (i : Int) (h : i < 0 ∨ len xs ≤ i) :
    index xs i = .error .indexOutOfRange := by
  unfold index
  split
  · have hge : xs.length ≤ i.toNat := by unfold len at h; omega
    rw [List.getElem?_eq_none hge]
  · rfl

theorem assign_natCast {α : Type} (xs : List α) (n : Nat) (v : α) (h : n < xs.length) :
    assign xs (n : Int) v = .ok (xs.set n v) := by
  simp [assign, len, h]

theorem assign_error {α : Type} (xs : List α) (i : Int) (v : α) (h : i < 0 ∨ len xs ≤ i) :
    assign xs i v = .error .indexOutOfRange := by
  unfold assign
  rw [if_neg]
  omega

/-! ## Loops -/

theorem forRange_zero {σ : Type} (body : Nat → σ → Except GoError σ) (s : σ) :
    forRange 0 body s = .ok s := rfl

theorem forRange_succ {σ : Type} (n : Nat) (body : Nat → σ → Except GoError σ) (s : σ) :
    forRange (n + 1) body s = forRange n body s >>= body n := by
  simp [forRange, List.range_succ, List.foldlM_append]

/-- Invariant rule for `forRange`: a body that never fails while the invariant
holds, and re-establishes it, makes the loop finish in a state satisfying it. -/
theorem forRange_inv {σ : Type} (Inv : Nat → σ → Prop) (n : Nat)
    (body : Nat → σ → Except GoError σ) (s0 : σ) (h0 : Inv 0 s0)
    (hstep : ∀ i s, i < n → Inv i s → ∃ s', body i s = .ok s' ∧ Inv (i + 1) s') :
    ∃ s', forRange n body s0 = .ok s' ∧ Inv n s' := by
  induction n with
  | zero => exact ⟨s0, rfl, h0⟩
  | succ k ih =>
    obtain ⟨s1, h1, hi1⟩ := ih (fun i s hi => hstep i s (Nat.lt_succ_of_lt hi))
    obtain ⟨s2, h2, hi2⟩ := hstep k s1 (Nat.lt_succ_self k) hi1
    exact ⟨s2, by rw [forRange_succ, h1]; exact h2, hi2⟩

/-- A loop whose body fails at index `k`, after `k` successful rounds, fails. -/
theorem forRange_fail {σ : Type} (n k : Nat) (body : Nat → σ → Except GoError σ) (s0 s : σ)
    (e : GoError) (hk : k < n) (hpre : forRange k body s0 = .ok s) (hbody : body k s = .error e) :
    forRange n body s0 = .error e := by
  induction n with
  | zero => omega
  | succ m ih =>
    rw [forRange_succ]
    rcases Nat.lt_succ_iff_lt_or_eq.mp hk with h | h
    · rw [ih h]; rfl
    · subst h; rw [hpre]; exact hbody

/-! ## Cell access and neighbour count -/

theorem matrixAt_eq (G : Matrix) (x y : Int) : matrixAt G x y = .ok (cell G x y) := by
  unfold matrixAt cell
  by_cases hx : 0 ≤ x
  · by_cases hy : 0 ≤ y
    · by_cases hl : x < len G
      · obtain ⟨row, hrow, hget⟩ := index_of_lt G x hx hl
        rw [if_pos ⟨hx, hy, hl⟩, hget]
        simp only [hrow, bind, Except.bind]
        by_cases hr : y < len row
        · obtain ⟨v, hv, hgv⟩ := index_of_lt row y hy hr
          simp [hr, hv, hgv, hx, hy]
        · have hge : row.length ≤ y.toNat := by unfold len at hr; omega
          simp [hr, hx, hy, List.getElem?_eq_none hge, pure, Except.pure]
      · have hge : G.length ≤ x.toNat := by unfold len at hl; omega
        simp [hl, hx, hy, List.getElem?_eq_none hge, pure, Except.pure]
    · simp [hy, pure, Except.pure]
  · simp [hx, pure, Except.pure]

theorem matrixCountNearAlive_eq (G : Matrix) (x y : Int) :
    matrixCountNearAlive G x y = .ok (countAlive (nearCells G x y)) := by
  simp [matrixCountNearAlive, matrixAt_eq, nearCells, bind, Except.bind, pure, Except.pure]

theorem countAlive_foldl (l : List Bool) (n : Int) :
    l.foldl (fun ok_cells c => if c = true then ok_cells + 1 else ok_cells) n
      = n + (l.countP id : Int) := by
  induction l generalizing n with
  | nil => simp
  | cons b t ih =>
    cases b <;> simp [List.foldl_cons, ih, List.countP_cons]; omega

theorem countAlive_eq (l : List Bool) : countAlive l = (l.countP id : Int) := by
  simp [countAlive, countAlive_foldl]

/-! ## The generation step -/

/-- Writing the next cell into a row filled up to column `j`. -/
theorem set_filled {α : Type} (f : Nat → α) (d : α) (j n : Nat) (h : j < n) :
    ((List.range j).map f ++ List.replicate (n - j) d).set j (f j)
      = (List.range (j + 1)).map f ++ List.replicate (n - (j + 1)) d := by
  have hn : n - j = (n - (j + 1)) + 1 := by omega
  rw [List.set_append_right _ _ (by simp), hn, List.replicate_succ]
  simp [List.range_succ]

/-- Writing the next row into a grid filled up to row `i`. -/
theorem set_filled_row {α : Type} (f : Nat → α) (d r : α) (i n : Nat) (h : i < n) :
    (((List.range i).map f ++ List.replicate (n - i) d).set i r).set i (f i)
      = (List.range (i + 1)).map f ++ List.replicate (n - (i + 1)) d := by
  rw [List.set_set, set_filled f d i n h]

theorem cell_natCast (G : Matrix) (i j : Nat) (row : List Bool) (hrow : G[i]? = some row)
    (v : Bool) (hv : row[j]? = some v) : cell G (i : Int) (j : Int) = v := by
  simp [cell, hrow, hv]

/-- The inner loop of `matrixNewGen` on row `i`, whose length `Wi` does not
exceed the length `W0` of the allocated output row. -/
theorem newGenCell_loop (G : Matrix) (i : Nat) (row : List Bool) (hrow : G[i]? = some row)
    (W0 : Nat) (hW : row.length ≤ W0) (m2 : Matrix) (hi2 : i < m2.length) :
    forRange row.length (newGenCell G i) (m2.set i (makeBools W0))
      = .ok (m2.set i ((List.range row.length).map (nextCell G i)
              ++ List.replicate (W0 - row.length) false)) := by
  have hiG : i < G.length := by
    by_contra hc
    rw [List.getElem?_eq_none (by omega)] at hrow
    cases hrow
  have hGi : G.get ⟨i, hiG⟩ = row := by
    have := List.getElem?_eq_getElem hiG
    rw [hrow] at this
    exact (Option.some.inj this).symm
  obtain ⟨s, hs, hinv⟩ := forRange_inv
    (fun j s => s = m2.set i ((List.range j).map (nextCell G i) ++ List.replicate (W0 - j) false))
    row.length (newGenCell G i) (m2.set i (makeBools W0)) (by simp [makeBools]) (by
      intro j s hj hs
      subst hs
      have hj0 : j < W0 := by omega
      have hcell : row.get ⟨j, hj⟩ = cell G i j :=
        (cell_natCast G i j row hrow _ (List.getElem?_eq_getElem hj)).symm
      have hlen : i < (m2.set i ((List.range j).map (nextCell G i)
          ++ List.replicate (W0 - j) false)).length := by simpa using hi2
      have hjl : j < ((List.range j).map (nextCell G i)
          ++ List.replicate (W0 - j) false).length := by simp; omega
      refine ⟨_, ?_, rfl⟩
      simp only [newGenCell, matrixCountNearAlive_eq, index_natCast G i hiG, hGi,
        index_natCast row j hj, index_natCast _ i hlen, bind, Except.bind, hcell]
      simp only [List.get_eq_getElem, List.getElem_set_self]
      rw [assign_natCast _ j _ hjl]
      dsimp only
      rw [assign_natCast _ i _ hlen, List.set_set]
      exact congrArg (fun r => Except.ok (m2.set i r)) (set_filled (nextCell G i) false j W0 hj0))
  rw [hs, hinv]

/-- Row `i` of the outer loop of `matrixNewGen`. -/
theorem newGenRow_eq (G : Matrix) (i : Nat) (hi : i < G.length)
    (hW : (G[i]?.getD []).length ≤ (G[0]?.getD []).length) (m2 : Matrix) (hi2 : i < m2.length) :
    newGenRow G i m2 = .ok (m2.set i (nextRow G i)) := by
  have h0 : 0 < G.length := by omega
  have hrow : G[i]? = some (G.get ⟨i, hi⟩) := List.getElem?_eq_getElem hi
  have hrow0 : G[0]? = some (G.get ⟨0, h0⟩) := List.getElem?_eq_getElem h0
  simp only [hrow, hrow0, Option.getD_some] at hW
  have hloop := newGenCell_loop G i (G.get ⟨i, hi⟩) hrow (G.get ⟨0, h0⟩).length hW m2 hi2
  simp only [newGenRow, index_natCast G i hi, bind, Except.bind]
  rw [show index G 0 = .ok (G.get ⟨0, h0⟩) from index_natCast G 0 h0]
  simp only [assign_natCast m2 i _ hi2, hloop, nextRow, hrow, hrow0, Option.getD_some]

/-- The generation step on a grid none of whose rows is longer than row 0. -/
theorem matrixNewGen_eq (G : Matrix) (hfit : RowsFit G) :
    matrixNewGen G = .ok ((List.range G.length).map (nextRow G)) := by
  obtain ⟨s, hs, hinv⟩ := forRange_inv
    (fun i s => s = (List.range i).map (nextRow G) ++ List.replicate (G.length - i) [])
    G.length (newGenRow G) (makeRows G.length) (by simp [makeRows]) (by
      intro i s hi hs
      subst hs
      refine ⟨_, newGenRow_eq G i hi (hfit i) _ (by simp; omega), ?_⟩
      exact set_filled (nextRow G) [] i G.length hi)
  rw [matrixNewGen, hs, hinv]
  simp

/-! ## Rectangular grids -/

theorem Rect.row_at {G : Matrix} {H W : Nat} (hR : Rect G H W) {i : Nat} (hi : i < H) :
    ∃ row, G[i]? = some row ∧ row.length = W := by
  have hi' : i < G.length := by rw [hR.1]; exact hi
  exact ⟨G[i], List.getElem?_eq_getElem hi', hR.2 _ (List.getElem_mem hi')⟩

theorem Rect.rowsFit {G : Matrix} {H W : Nat} (hR : Rect G H W) : RowsFit G := by
  intro i
  by_cases hi : i < H
  · obtain ⟨row, hrow, hlen⟩ := hR.row_at hi
    obtain ⟨row0, hrow0, hlen0⟩ := hR.row_at (Nat.lt_of_le_of_lt (Nat.zero_le i) hi)
    simp [hrow, hrow0, hlen, hlen0]
  · rw [List.getElem?_eq_none (by rw [hR.1]; omega)]
    simp

theorem Rect.nextRow_eq {G : Matrix} {H W : Nat} (hR : Rect G H W) {i : Nat} (hi : i < H) :
    GameOfLife.nextRow G i = (List.range W).map (nextCell G i) := by
  obtain ⟨row, hrow, hlen⟩ := hR.row_at hi
  obtain ⟨row0, hrow0, hlen0⟩ := hR.row_at (Nat.lt_of_le_of_lt (Nat.zero_le i) hi)
  simp [GameOfLife.nextRow, hrow, hrow0, hlen, hlen0]

/-- On a rectangular grid the generation step returns `nextGrid`. -/
theorem matrixNewGen_rect {G : Matrix} {H W : Nat} (hR : Rect G H W) :
    matrixNewGen G = .ok (nextGrid G H W) := by
  rw [matrixNewGen_eq G hR.rowsFit, hR.1, nextGrid]
  refine congrArg Except.ok (List.map_congr_left ?_)
  intro i hi
  exact hR.nextRow_eq (List.mem_range.mp hi)

theorem nextGrid_rect (G : Matrix) (H W : Nat) : Rect (nextGrid G H W) H W := by
  constructor
  · simp [nextGrid]
  · intro row hrow
    simp only [nextGrid, List.mem_map] at hrow
    obtain ⟨i, _, rfl⟩ := hrow
    simp

theorem index2_nextGrid (G : Matrix) (H W i j : Nat) (hi : i < H) (hj : j < W) :
    index2 (nextGrid G H W) i j = .ok (nextCell G i j) := by
  have hi' : i < (nextGrid G H W).length := by simpa [nextGrid] using hi
  have hrow : (nextGrid G H W).get ⟨i, hi'⟩ = (List.range W).map (nextCell G i) := by
    simp [nextGrid]
  have hj' : j < ((List.range W).map (nextCell G i)).length := by simpa using hj
  simp only [index2, index_natCast _ i hi', bind, Except.bind, hrow, index_natCast _ j hj']
  simp

theorem index2_rect {G : Matrix} {H W : Nat} (hR : Rect G H W) {i j : Nat}
    (hi : i < H) (hj : j < W) : index2 G i j = .ok (cell G i j) := by
  obtain ⟨row, hrow, hlen⟩ := hR.row_at hi
  have hi' : i < G.length := by rw [hR.1]; exact hi
  have hj' : j < row.length := by rw [hlen]; exact hj
  have hGi : G.get ⟨i, hi'⟩ = row := by
    have := List.getElem?_eq_getElem hi'
    rw [hrow] at this
    exact (Option.some.inj this).symm
  simp only [index2, index_natCast _ i hi', bind, Except.bind, hGi, index_natCast _ j hj']
  exact congrArg Except.ok (cell_natCast G i j row hrow _ (List.getElem?_eq_getElem hj')).symm

/-! ## The claims -/

/-- C1: for every boolean `alive` and every integer `num_alive`, negative or
above 8 included, `cellWillLive` is true exactly when the cell is alive with 2
or 3 live neighbours or dead with 3, and false in every other case. -/
theorem cellWillLive_spec (alive : Bool) (num_alive : Int) :
    (cellWillLive alive num_alive = true ↔
        (alive = true ∧ (num_alive = 2 ∨ num_alive = 3)) ∨ (alive = false ∧ num_alive = 3)) ∧
    (cellWillLive alive num_alive = false ↔
        ¬((alive = true ∧ (num_alive = 2 ∨ num_alive = 3)) ∨ (alive = false ∧ num_alive = 3))) := by
  cases alive <;> simp [cellWillLive]

/-- C2: on a rectangular grid `G`, the cell `(i, j)` of `matrixNewGen G` is
`cellWillLive` of the cell `G[i][j]` and of the neighbour count of `(i, j)` in
`G`, both read from the input grid; so a dead cell becomes alive iff it has
exactly 3 live neighbours in `G` and a live cell stays alive iff it has 2 or 3. -/
theorem matrixNewGen_cell (G : Matrix) (H W : Nat) (hR : Rect G H W) (i j : Nat)
    (hi : i < H) (hj : j < W) :
    ∃ G2 alive num_alive,
      matrixNewGen G = .ok G2 ∧ index2 G i j = .ok alive ∧
      matrixCountNearAlive G i j = .ok num_alive ∧
      index2 G2 i j = .ok (cellWillLive alive num_alive) ∧
      (alive = false → (index2 G2 i j = .ok true ↔ num_alive = 3)) ∧
      (alive = true → (index2 G2 i j = .ok true ↔ num_alive = 2 ∨ num_alive = 3)) := by
  have hcell : index2 (nextGrid G H W) i j
      = .ok (cellWillLive (cell G i j) (countAlive (nearCells G i j))) :=
    index2_nextGrid G H W i j hi hj
  refine ⟨nextGrid G H W, cell G i j, countAlive (nearCells G i j), matrixNewGen_rect hR,
    index2_rect hR hi hj, matrixCountNearAlive_eq G i j, hcell, ?_, ?_⟩
  · intro ha
    rw [hcell, ha]
    simp [cellWillLive]
  · intro ha
    rw [hcell, ha]
    simp [cellWillLive]

/-- Witness for C2: the centre cell of the L-shaped 3-by-3 grid. -/
theorem matrixNewGen_cell_witness :
    Rect lGrid 3 3 ∧ ∃ G2 alive num_alive,
      matrixNewGen lGrid = .ok G2 ∧ index2 lGrid (1 : Nat) (1 : Nat) = .ok alive ∧
      matrixCountNearAlive lGrid (1 : Nat) (1 : Nat) = .ok num_alive ∧
      index2 G2 (1 : Nat) (1 : Nat) = .ok (cellWillLive alive num_alive) ∧
      (alive = false → (index2 G2 (1 : Nat) (1 : Nat) = .ok true ↔ num_alive = 3)) ∧
      (alive = true →
        (index2 G2 (1 : Nat) (1 : Nat) = .ok true ↔ num_alive = 2 ∨ num_alive = 3)) :=
  ⟨by decide, matrixNewGen_cell lGrid 3 3 (by decide) 1 1 (by decide) (by decide)⟩

theorem newGenTimes_rect (n : Nat) : ∀ (G : Matrix) (H W : Nat), Rect G H W →
    ∃ Gn, newGenTimes n G = .ok Gn ∧ Rect Gn H W := by
  induction n with
  | zero => intro G H W hR; exact ⟨G, rfl, hR⟩
  | succ k ih =>
    intro G H W hR
    obtain ⟨Gn, hGn, hRn⟩ := ih (nextGrid G H W) H W (nextGrid_rect G H W)
    exact ⟨Gn, by simp only [newGenTimes, matrixNewGen_rect hR, bind, Except.bind, hGn], hRn⟩

/-- C3: on a rectangular grid with `H` rows and `W` columns, `H = 0` and
`W = 0` included, `matrixNewGen` returns (no index is out of range) a grid with
`H` rows of `W` cells each; hence so does `matrixNewGen` applied `n` times. -/
theorem matrixNewGen_dims (G : Matrix) (H W : Nat) (hR : Rect G H W) :
    (∃ G2, matrixNewGen G = .ok G2 ∧ Rect G2 H W) ∧
    ∀ n, ∃ Gn, newGenTimes n G = .ok Gn ∧ Rect Gn H W :=
  ⟨⟨nextGrid G H W, matrixNewGen_rect hR, nextGrid_rect G H W⟩,
   fun n => newGenTimes_rect n G H W hR⟩

/-- Witness for C3: the L-shaped 3-by-3 grid, whose step writes nine cells and
returns the block, and a 2-by-3 grid. -/
theorem matrixNewGen_dims_witness :
    (Rect lGrid 3 3 ∧ matrixNewGen lGrid = .ok blockGrid ∧
      (∃ G2, matrixNewGen lGrid = .ok G2 ∧ Rect G2 3 3) ∧
      ∀ n, ∃ Gn, newGenTimes n lGrid = .ok Gn ∧ Rect Gn 3 3) ∧
    (Rect wideGrid 2 3 ∧
      (∃ G2, matrixNewGen wideGrid = .ok G2 ∧ Rect G2 2 3) ∧
      ∀ n, ∃ Gn, newGenTimes n wideGrid = .ok Gn ∧ Rect Gn 2 3) :=
  ⟨⟨by decide, by decide, matrixNewGen_dims lGrid 3 3 (by decide)⟩,
   ⟨by decide, matrixNewGen_dims wideGrid 2 3 (by decide)⟩⟩

theorem neighbourOffsets_eq :
    neighbourOffsets = [(-1, -1), (-1, 0), (-1, 1), (0, -1), (0, 1), (1, -1), (1, 0), (1, 1)] := by
  decide

theorem nearCells_eq_map (G : Matrix) (x y : Int) :
    nearCells G x y = neighbourOffsets.map fun d => cell G (x + d.1) (y + d.2) := by
  simp [neighbourOffsets_eq, nearCells, Int.sub_eq_add_neg]

/-- On a rectangular grid the program sees a live cell exactly at the positions
inside the grid that store one. -/
theorem cell_rect {G : Matrix} {H W : Nat} (hR : Rect G H W) (a b : Int) :
    cell G a b = decide (inGrid H W a b ∧ aliveAt G a b) := by
  by_cases ha : 0 ≤ a
  · by_cases hb : 0 ≤ b
    · by_cases hH : a < H
      · obtain ⟨row, hrow, hlen⟩ := hR.row_at (show a.toNat < H by omega)
        by_cases hW : b < W
        · have hb' : b.toNat < row.length := by omega
          simp [cell, inGrid, aliveAt, ha, hb, hH, hW, hrow, List.getElem?_eq_getElem hb']
        · have hb' : row.length ≤ b.toNat := by omega
          simp [cell, inGrid, aliveAt, ha, hb, hH, hW, hrow, List.getElem?_eq_none hb']
      · have ha' : G.length ≤ a.toNat := by rw [hR.1]; omega
        simp [cell, inGrid, ha, hb, hH, List.getElem?_eq_none ha']
    · simp [cell, inGrid, hb]
  · simp [cell, inGrid, ha]

theorem countAlive_nearCells_rect {G : Matrix} {H W : Nat} (hR : Rect G H W) (x y : Int) :
    countAlive (nearCells G x y) = (specNearAlive G H W x y : Int) := by
  rw [countAlive_eq, nearCells_eq_map, List.countP_map, specNearAlive, ← List.countP_eq_length_filter]
  congr 1
  refine List.countP_congr ?_
  intro d _
  simp [cell_rect hR]

/-- C4: on a rectangular grid and at every cell `(x, y)`, the in-bounds ones in
particular, `matrixCountNearAlive G x y` is the number of
offsets `(dx, dy)` in `{-1,0,1} x {-1,0,1}`, other than `(0,0)`, whose position
`(x+dx, y+dy)` is inside the grid and alive: positions outside the grid count
as dead, nothing wraps around and `(x, y)` itself is not counted. -/
theorem matrixCountNearAlive_spec (G : Matrix) (H W : Nat) (hR : Rect G H W) (x y : Int) :
    matrixCountNearAlive G x y = .ok (specNearAlive G H W x y : Int) := by
  rw [matrixCountNearAlive_eq, countAlive_nearCells_rect hR]

/-- Witness for C4: the corner `(0, 0)` of the L-shaped grid has 3 live neighbours. -/
theorem matrixCountNearAlive_spec_witness :
    Rect lGrid 3 3 ∧ matrixCountNearAlive lGrid 0 0 = .ok (specNearAlive lGrid 3 3 0 0 : Int) :=
  ⟨by decide, matrixCountNearAlive_spec lGrid 3 3 (by decide) 0 0⟩

theorem specNearAlive_le (G : Matrix) (H W : Nat) (x y : Int) :
    specNearAlive G H W x y ≤ specNearInGrid H W x y := by
  rw [specNearAlive, specNearInGrid, ← List.countP_eq_length_filter,
    ← List.countP_eq_length_filter]
  refine List.countP_mono_left ?_
  intro d _ hd
  simp only [decide_eq_true_eq] at hd ⊢
  exact hd.1

theorem specNearInGrid_corner (H W x y : Nat) (hH : 2 ≤ H)
    (hx : x = 0 ∨ x + 1 = H) (hy : y = 0 ∨ y + 1 = W) : specNearInGrid H W x y ≤ 3 := by
  simp only [specNearInGrid, neighbourOffsets_eq, ← List.countP_eq_length_filter,
    List.countP_cons, List.countP_nil, inGrid, decide_eq_true_eq]
  split_ifs <;> omega

theorem specNearInGrid_border (H W x y : Nat)
    (hb : x = 0 ∨ x + 1 = H ∨ y = 0 ∨ y + 1 = W) : specNearInGrid H W x y ≤ 5 := by
  simp only [specNearInGrid, neighbourOffsets_eq, ← List.countP_eq_length_filter,
    List.countP_cons, List.countP_nil, inGrid, decide_eq_true_eq]
  split_ifs <;> omega

/-- C5: on a rectangular `H`-by-`W` grid and at every cell `(x, y)`, the
in-bounds ones in particular, `matrixCountNearAlive` is at most the number of the 8 adjacent positions that
lie inside the grid; when `H ≥ 2` and `W ≥ 2` it is at most 3 at a corner and
at most 5 at a cell on the border that is not a corner, whatever the grid holds. -/
theorem matrixCountNearAlive_le_inGrid (G : Matrix) (H W : Nat) (hR : Rect G H W) (x y : Nat) :
    ∃ n : Int, matrixCountNearAlive G x y = .ok n ∧ n ≤ specNearInGrid H W x y ∧
      (2 ≤ H → 2 ≤ W → (x = 0 ∨ x + 1 = H) ∧ (y = 0 ∨ y + 1 = W) → n ≤ 3) ∧
      (2 ≤ H → 2 ≤ W → (x = 0 ∨ x + 1 = H ∨ y = 0 ∨ y + 1 = W) →
        ¬((x = 0 ∨ x + 1 = H) ∧ (y = 0 ∨ y + 1 = W)) → n ≤ 5) := by
  have hle : (specNearAlive G H W x y : Int) ≤ specNearInGrid H W x y :=
    Int.ofNat_le.mpr (specNearAlive_le G H W x y)
  refine ⟨specNearAlive G H W x y, ?_, hle, ?_, ?_⟩
  · rw [matrixCountNearAlive_eq, countAlive_nearCells_rect hR]
  · intro hH _ hc
    have := specNearInGrid_corner H W x y hH hc.1 hc.2
    omega
  · intro _ _ hb _
    have := specNearInGrid_border H W x y hb
    omega

/-- Witness for C5: the corner `(0, 0)` of the L-shaped grid. -/
theorem matrixCountNearAlive_le_inGrid_witness :
    Rect lGrid 3 3 ∧ ∃ n : Int, matrixCountNearAlive lGrid (0 : Nat) (0 : Nat) = .ok n ∧
      n ≤ specNearInGrid 3 3 (0 : Nat) (0 : Nat) ∧
      (2 ≤ 3 → 2 ≤ 3 → ((0 : Nat) = 0 ∨ 0 + 1 = 3) ∧ ((0 : Nat) = 0 ∨ 0 + 1 = 3) → n ≤ 3) ∧
      (2 ≤ 3 → 2 ≤ 3 → ((0 : Nat) = 0 ∨ 0 + 1 = 3 ∨ (0 : Nat) = 0 ∨ 0 + 1 = 3) →
        ¬(((0 : Nat) = 0 ∨ 0 + 1 = 3) ∧ ((0 : Nat) = 0 ∨ 0 + 1 = 3)) → n ≤ 5) :=
  ⟨by decide, matrixCountNearAlive_le_inGrid lGrid 3 3 (by decide) 0 0⟩

/-- C6: for every grid and all integers `x` and `y`, `matrixAt` never fails: it
returns `G[x][y]` when `0 ≤ x < len(G)` and `0 ≤ y < len(G[x])`, and `false`
at every other coordinate, negative ones included. -/
theorem matrixAt_spec (G : Matrix) (x y : Int) :
    (∃ v, matrixAt G x y = .ok v) ∧
    matrixAt G x y =
      if 0 ≤ x ∧ x < len G ∧ 0 ≤ y ∧ y < len (G[x.toNat]?.getD []) then index2 G x y
      else .ok false := by
  refine ⟨⟨_, matrixAt_eq G x y⟩, ?_⟩
  rw [matrixAt_eq]
  split
  · rename_i h
    obtain ⟨hx, hxl, hy, hyl⟩ := h
    obtain ⟨row, hrow, hget⟩ := index_of_lt G x hx hxl
    rw [hget] at hyl
    obtain ⟨v, hv, hgv⟩ := index_of_lt row y hy hyl
    simp [index2, hrow, bind, Except.bind, hv, cell, hx, hy, hget, hgv]
  · rename_i h
    refine congrArg Except.ok ?_
    by_cases hx : 0 ≤ x
    · by_cases hy : 0 ≤ y
      · by_cases hxl : x < len G
        · have hyl : (G[x.toNat]?.getD []).length ≤ y.toNat := by
            have : ¬ y < len (G[x.toNat]?.getD []) := fun hc => h ⟨hx, hxl, hy, hc⟩
            unfold len at this
            omega
          simp [cell, List.getElem?_eq_none hyl]
        · have hge : G.length ≤ x.toNat := by unfold len at hxl; omega
          simp [cell, List.getElem?_eq_none hge]
      · simp [cell, hy]
    · simp [cell, hx]

/-! ## 64-bit arithmetic -/

theorem cell_false_row (G : Matrix) (a b : Int) (h : a < 0 ∨ (G.length : Int) ≤ a) :
    cell G a b = false := by
  rcases h with h | h
  · simp [cell, h]
  · have hge : G.length ≤ a.toNat := by omega
    simp [cell, List.getElem?_eq_none hge]

theorem cell_false_col (G : Matrix) (a b : Int)
    (h : b < 0 ∨ ∀ row ∈ G, (row.length : Int) ≤ b) : cell G a b = false := by
  rcases h with h | h
  · simp [cell, h]
  · have hge : (G[a.toNat]?.getD []).length ≤ b.toNat := by
      by_cases ha : a.toNat < G.length
      · rw [List.getElem?_eq_getElem ha]
        have := h _ (List.getElem_mem ha)
        simp only [Option.getD_some]
        omega
      · rw [List.getElem?_eq_none (by omega)]
        simp
    simp [cell, List.getElem?_eq_none hge]

theorem wrapInt64_id (a : Int) (ha : -2 ^ 63 ≤ a ∧ a < 2 ^ 63) : wrapInt64 a = a := by
  unfold wrapInt64
  omega

/-- One step away from a 64-bit value, wrapping the row coordinate around does
not change the cell the program sees, when the grid has fewer than `2^63` rows. -/
theorem cell_wrap_row (G : Matrix) (hG : (G.length : Int) < 2 ^ 63) (a b : Int)
    (ha : -2 ^ 63 - 1 ≤ a ∧ a ≤ 2 ^ 63) : cell G (wrapInt64 a) b = cell G a b := by
  by_cases h : -2 ^ 63 ≤ a ∧ a < 2 ^ 63
  · rw [wrapInt64_id a h]
  · rw [cell_false_row G (wrapInt64 a) b (by unfold wrapInt64; omega),
      cell_false_row G a b (by omega)]

/-- The same for the column coordinate, when every row has fewer than `2^63` cells. -/
theorem cell_wrap_col (G : Matrix) (hG : ∀ row ∈ G, (row.length : Int) < 2 ^ 63) (a b : Int)
    (hb : -2 ^ 63 - 1 ≤ b ∧ b ≤ 2 ^ 63) : cell G a (wrapInt64 b) = cell G a b := by
  by_cases h : -2 ^ 63 ≤ b ∧ b < 2 ^ 63
  · rw [wrapInt64_id b h]
  · have hw : wrapInt64 b < 0 ∨ wrapInt64 b = 2 ^ 63 - 1 := by unfold wrapInt64; omega
    have hb' : b < 0 ∨ b = 2 ^ 63 := by omega
    rw [cell_false_col G a (wrapInt64 b) (hw.imp id fun hw row hrow => by
        have := hG row hrow
        omega),
      cell_false_col G a b (hb'.imp id fun hb' row hrow => by
        have := hG row hrow
        omega)]

theorem countAlive_bounds (l : List Bool) : 0 ≤ countAlive l ∧ countAlive l ≤ l.length := by
  rw [countAlive_eq]
  exact ⟨Int.ofNat_nonneg _, Int.ofNat_le.mpr (List.countP_le_length _)⟩

theorem matrixCountNearAlive64_eq_cells (G : Matrix) (x y : Int) :
    matrixCountNearAlive64 G x y = .ok (countAlive
      [cell G (wrapInt64 (x - 1)) (wrapInt64 (y - 1)), cell G (wrapInt64 (x - 1)) y,
       cell G (wrapInt64 (x - 1)) (wrapInt64 (y + 1)), cell G x (wrapInt64 (y - 1)),
       cell G x (wrapInt64 (y + 1)), cell G (wrapInt64 (x + 1)) (wrapInt64 (y - 1)),
       cell G (wrapInt64 (x + 1)) y, cell G (wrapInt64 (x + 1)) (wrapInt64 (y + 1))]) := by
  simp [matrixCountNearAlive64, matrixAt_eq, bind, Except.bind, pure, Except.pure]

/-- On 64-bit coordinates and on a grid with fewer than `2^63` rows and columns,
as every Go slice has, the wrap-around of `x ± 1` and `y ± 1` changes nothing. -/
theorem matrixCountNearAlive64_eq (G : Matrix) (hG : (G.length : Int) < 2 ^ 63)
    (hrow : ∀ row ∈ G, (row.length : Int) < 2 ^ 63) (x y : Int)
    (hx : -2 ^ 63 ≤ x ∧ x < 2 ^ 63) (hy : -2 ^ 63 ≤ y ∧ y < 2 ^ 63) :
    matrixCountNearAlive64 G x y = matrixCountNearAlive G x y := by
  have hx1 : -2 ^ 63 - 1 ≤ x - 1 ∧ x - 1 ≤ 2 ^ 63 := by omega
  have hx2 : -2 ^ 63 - 1 ≤ x + 1 ∧ x + 1 ≤ 2 ^ 63 := by omega
  have hy1 : -2 ^ 63 - 1 ≤ y - 1 ∧ y - 1 ≤ 2 ^ 63 := by omega
  have hy2 : -2 ^ 63 - 1 ≤ y + 1 ∧ y + 1 ≤ 2 ^ 63 := by omega
  rw [matrixCountNearAlive64_eq_cells, matrixCountNearAlive_eq, nearCells]
  simp only [cell_wrap_row G hG _ _ hx1, cell_wrap_row G hG _ _ hx2,
    cell_wrap_col G hrow _ _ hy1, cell_wrap_col G hrow _ _ hy2]

/-- C7: for every grid, rectangular or not, empty or not, and all integers `x`
and `y`, in bounds or not, `matrixCountNearAlive` returns without error an
integer between 0 and 8; so it does with the wrap-around of 64-bit `int`. -/
theorem matrixCountNearAlive_bounds (G : Matrix) (x y : Int) :
    (∃ n, matrixCountNearAlive G x y = .ok n ∧ 0 ≤ n ∧ n ≤ 8) ∧
    (∃ n, matrixCountNearAlive64 G x y = .ok n ∧ 0 ≤ n ∧ n ≤ 8) := by
  constructor
  · exact ⟨_, matrixCountNearAlive_eq G x y, (countAlive_bounds _).1, (countAlive_bounds _).2⟩
  · exact ⟨_, matrixCountNearAlive64_eq_cells G x y, (countAlive_bounds _).1,
      (countAlive_bounds _).2⟩

/-! ## Rendering -/

theorem cellRender_data (b : Bool) : (cellRender b).data = [glyph b] := by
  cases b <;> rfl

theorem renderRow_data (row : List Bool) (str : String) :
    (row.foldl (fun str is_alive => str ++ cellRender is_alive) str).data
      = str.data ++ row.map glyph := by
  induction row generalizing str with
  | nil => simp
  | cons b t ih => simp [List.foldl_cons, ih, cellRender_data]

theorem renderRows_data (G : Matrix) (str : String) :
    (G.foldl (fun str row =>
        row.foldl (fun str is_alive => str ++ cellRender is_alive) str ++ "\n") str).data
      = str.data ++ (G.map renderLine).flatten := by
  induction G generalizing str with
  | nil => simp
  | cons row t ih => simp [List.foldl_cons, ih, renderRow_data, renderLine]

theorem gridRender_data (G : Matrix) : (gridRender G).data = (G.map renderLine).flatten := by
  simp [gridRender, renderRows_data]

theorem renderLines_length (G : Matrix) (W : Nat) (h : ∀ row ∈ G, row.length = W) :
    ((G.map renderLine).flatten).length = G.length * (W + 1) := by
  induction G with
  | nil => simp
  | cons row t ih =>
    have hrow : row.length = W := h row (List.mem_cons_self _ _)
    have ht := ih (fun r hr => h r (List.mem_cons_of_mem _ hr))
    simp only [List.map_cons, List.flatten_cons, List.length_append, ht, List.length_cons]
    simp [renderLine, hrow, Nat.succ_mul]
    omega

/-- C8: on a rectangular `H`-by-`W` grid, `gridRender` is the concatenation, row
by row in order, of the `W` glyphs of the row (`#` alive, `.` dead) followed by
one newline: `H` newline-terminated lines of `W` glyphs each, `H * (W + 1)`
characters in all; on the all-dead grid every line is `W` times `.`. -/
theorem gridRender_spec (G : Matrix) (H W : Nat) (hR : Rect G H W) :
    gridRender G = String.mk (G.map renderLine).flatten ∧
    (G.map renderLine).length = H ∧
    (∀ line ∈ G.map renderLine, ∃ glyphs : List Char,
      line = glyphs ++ ['\n'] ∧ glyphs.length = W ∧ ∀ ch ∈ glyphs, ch = '#' ∨ ch = '.') ∧
    (gridRender G).length = H * (W + 1) ∧
    gridRender (List.replicate H (List.replicate W false))
      = String.mk (List.replicate H (List.replicate W '.' ++ ['\n'])).flatten := by
  refine ⟨String.ext (gridRender_data G), by simp [hR.1], ?_, ?_, ?_⟩
  · intro line hline
    obtain ⟨row, hrow, rfl⟩ := List.mem_map.mp hline
    refine ⟨row.map glyph, rfl, by simp [hR.2 row hrow], ?_⟩
    intro ch hch
    obtain ⟨b, _, rfl⟩ := List.mem_map.mp hch
    cases b
    · right; rfl
    · left; rfl
  · rw [String.length, gridRender_data, renderLines_length G W hR.2, hR.1]
  · refine String.ext ?_
    rw [gridRender_data]
    simp [renderLine, glyph]

/-- Witness for C8: the L-shaped 3-by-3 grid. -/
theorem gridRender_spec_witness :
    Rect lGrid 3 3 ∧ gridRender lGrid = ".#.\n##.\n...\n" ∧
    gridRender lGrid = String.mk (lGrid.map renderLine).flatten ∧
    (lGrid.map renderLine).length = 3 ∧
    (∀ line ∈ lGrid.map renderLine, ∃ glyphs : List Char,
      line = glyphs ++ ['\n'] ∧ glyphs.length = 3 ∧ ∀ ch ∈ glyphs, ch = '#' ∨ ch = '.') ∧
    (gridRender lGrid).length = 3 * (3 + 1) ∧
    gridRender (List.replicate 3 (List.replicate 3 false))
      = String.mk (List.replicate 3 (List.replicate 3 '.' ++ ['\n'])).flatten :=
  ⟨by decide, by decide, gridRender_spec lGrid 3 3 (by decide)⟩

/-! ## A single live cell -/

theorem cell_onlyLiveAt {G : Matrix} {H W r c : Nat} (hR : Rect G H W)
    (hO : OnlyLiveAt G H W r c) (a b : Int) (h : cell G a b = true) : a = r ∧ b = c := by
  rw [cell_rect hR, decide_eq_true_eq] at h
  obtain ⟨⟨ha, haH, hb, hbW⟩, hal⟩ := h
  have hal' : aliveAt G (a.toNat : Int) (b.toNat : Int) := by
    rw [Int.toNat_of_nonneg ha, Int.toNat_of_nonneg hb]
    exact hal
  have := (hO.2 a.toNat (by omega) b.toNat (by omega)).mp hal'
  omega

theorem indicator_cases (b : Bool) (P : Prop) (h : b = true → P) :
    (if b = true then 1 else 0 : Nat) = 0 ∨ ((if b = true then 1 else 0 : Nat) = 1 ∧ P) := by
  cases b
  · left; rfl
  · right; exact ⟨rfl, h rfl⟩

theorem countAlive_nearCells_onlyLiveAt {G : Matrix} {H W r c : Nat} (hR : Rect G H W)
    (hO : OnlyLiveAt G H W r c) (x y : Int) : countAlive (nearCells G x y) ≤ 1 := by
  have h0 := indicator_cases _ _ (cell_onlyLiveAt hR hO (x - 1) (y - 1))
  have h1 := indicator_cases _ _ (cell_onlyLiveAt hR hO (x - 1) y)
  have h2 := indicator_cases _ _ (cell_onlyLiveAt hR hO (x - 1) (y + 1))
  have h3 := indicator_cases _ _ (cell_onlyLiveAt hR hO x (y - 1))
  have h4 := indicator_cases _ _ (cell_onlyLiveAt hR hO x (y + 1))
  have h5 := indicator_cases _ _ (cell_onlyLiveAt hR hO (x + 1) (y - 1))
  have h6 := indicator_cases _ _ (cell_onlyLiveAt hR hO (x + 1) y)
  have h7 := indicator_cases _ _ (cell_onlyLiveAt hR hO (x + 1) (y + 1))
  rw [countAlive_eq]
  simp only [nearCells, List.countP_cons, List.countP_nil, id]
  omega

theorem cellWillLive_of_le_one (alive : Bool) (n : Int) (h : n ≤ 1) :
    cellWillLive alive n = false := by
  have h2 : n ≠ 2 := by omega
  have h3 : n ≠ 3 := by omega
  cases alive <;> simp [cellWillLive, h2, h3]

/-- C9: a rectangular grid with exactly one live cell, wherever it is, turns
into the all-dead grid of the same dimensions. -/
theorem matrixNewGen_single (G : Matrix) (H W r c : Nat) (hR : Rect G H W)
    (hO : OnlyLiveAt G H W r c) :
    matrixNewGen G = .ok (List.replicate H (List.replicate W false)) := by
  have hcell : nextCell G = fun _ _ => false := by
    funext i j
    exact cellWillLive_of_le_one _ _ (countAlive_nearCells_onlyLiveAt hR hO i j)
  rw [matrixNewGen_rect hR, nextGrid, hcell]
  simp

/-- Witness for C9: the 3-by-3 grid with only the centre cell `(1, 1)` alive. -/
theorem matrixNewGen_single_witness :
    (Rect centreGrid 3 3 ∧ OnlyLiveAt centreGrid 3 3 1 1) ∧
    matrixNewGen centreGrid = .ok (List.replicate 3 (List.replicate 3 false)) :=
  ⟨by decide, matrixNewGen_single centreGrid 3 3 1 1 (by decide) (by decide)⟩

/-- C10: in the 3-by-3 grid whose live cells are exactly (0,1), (1,1) and
(1,0), the corner (0,0) has neighbour count 3, the cell (1,1) is alive in the
next generation, and the next generation is exactly the grid whose live cells
are (0,0), (0,1), (1,0) and (1,1). -/
theorem matrixNewGen_lGrid :
    (Rect lGrid 3 3 ∧ ∀ i, i < 3 → ∀ j, j < 3 →
      (aliveAt lGrid (i : Nat) (j : Nat) ↔ (i, j) ∈ [(0, 1), (1, 1), (1, 0)])) ∧
    matrixCountNearAlive lGrid 0 0 = .ok 3 ∧
    (matrixNewGen lGrid >>= fun G2 => index2 G2 1 1) = .ok true ∧
    matrixNewGen lGrid = .ok blockGrid ∧
    (Rect blockGrid 3 3 ∧ ∀ i, i < 3 → ∀ j, j < 3 →
      (aliveAt blockGrid (i : Nat) (j : Nat) ↔ (i, j) ∈ [(0, 0), (0, 1), (1, 0), (1, 1)])) :=
  ⟨⟨by decide, by decide⟩, by decide, by decide, by decide, by decide, by decide⟩

/-! ## Loops in any order -/

theorem forEach_nil {σ : Type} (body : Nat → σ → Except GoError σ) (s : σ) :
    forEach [] body s = .ok s := rfl

theorem forEach_cons {σ : Type} (k : Nat) (l : List Nat) (body : Nat → σ → Except GoError σ)
    (s : σ) : forEach (k :: l) body s = body k s >>= forEach l body := rfl

theorem matrixNewGenIn_range (G : Matrix) :
    matrixNewGenIn List.range (fun _ => List.range) G = matrixNewGen G := rfl

/-- A loop fails as soon as one of its rounds fails in every state the loop can be in. -/
theorem forEach_fails {σ : Type} (Inv : σ → Prop) (l : List Nat)
    (body : Nat → σ → Except GoError σ) (i : Nat) (hi : i ∈ l)
    (hpres : ∀ k s s', Inv s → body k s = .ok s' → Inv s')
    (hfail : ∀ s, Inv s → ∃ e, body i s = .error e) (s0 : σ) (h0 : Inv s0) :
    ∃ e, forEach l body s0 = .error e := by
  induction l generalizing s0 with
  | nil => cases hi
  | cons k t ih =>
    rw [forEach_cons]
    cases hk : body k s0 with
    | error e => exact ⟨e, rfl⟩
    | ok s1 =>
      rcases List.mem_cons.mp hi with h | h
      · subst h
        obtain ⟨e, he⟩ := hfail s0 h0
        rw [he] at hk
        cases hk
      · exact ih h s1 (hpres k s0 s1 h0 hk)

/-- A loop fails only with an error of one of its rounds. -/
theorem forEach_error_kind {σ : Type} (P : GoError → Prop) (l : List Nat)
    (body : Nat → σ → Except GoError σ) (hbody : ∀ k s e, body k s = .error e → P e)
    (s0 : σ) (e : GoError) (h : forEach l body s0 = .error e) : P e := by
  induction l generalizing s0 with
  | nil => cases h
  | cons k t ih =>
    rw [forEach_cons] at h
    cases hk : body k s0 with
    | error e' =>
      rw [hk] at h
      cases h
      exact hbody k s0 e hk
    | ok s1 =>
      rw [hk] at h
      exact ih s1 h

theorem index_error_kind {α : Type} (xs : List α) (i : Int) (e : GoError)
    (h : index xs i = .error e) : e = .indexOutOfRange := by
  unfold index at h
  split at h
  · split at h
    · cases h
    · cases h; rfl
  · cases h; rfl

theorem assign_error_kind {α : Type} (xs : List α) (i : Int) (v : α) (e : GoError)
    (h : assign xs i v = .error e) : e = .indexOutOfRange := by
  unfold assign at h
  split at h
  · cases h
  · cases h; rfl

theorem index_nat_cases {α : Type} (xs : List α) (n : Nat) :
    (∃ h : n < xs.length, index xs (n : Int) = .ok (xs.get ⟨n, h⟩)) ∨
    (xs.length ≤ n ∧ index xs (n : Int) = .error .indexOutOfRange) := by
  by_cases h : n < xs.length
  · exact Or.inl ⟨h, index_natCast xs n h⟩
  · exact Or.inr ⟨by omega, index_error xs n (Or.inr (by unfold len; omega))⟩

theorem assign_nat_cases {α : Type} (xs : List α) (n : Nat) (v : α) :
    (n < xs.length ∧ assign xs (n : Int) v = .ok (xs.set n v)) ∨
    (xs.length ≤ n ∧ assign xs (n : Int) v = .error .indexOutOfRange) := by
  by_cases h : n < xs.length
  · exact Or.inl ⟨h, assign_natCast xs n v h⟩
  · exact Or.inr ⟨by omega, assign_error xs n v (Or.inr (by unfold len; omega))⟩

/-- One round of the inner loop either fails with an index out of range or
writes one cell of row `i` of the output. -/
theorem newGenCell_cases (G : Matrix) (i j : Nat) (m : Matrix) :
    newGenCell G i j m = .error .indexOutOfRange ∨
    ∃ r2 v, m[i]? = some r2 ∧ j < r2.length ∧ newGenCell G i j m = .ok (m.set i (r2.set j v)) := by
  simp only [newGenCell, matrixCountNearAlive_eq, bind, Except.bind]
  rcases index_nat_cases G i with ⟨hi, h1⟩ | ⟨_, h1⟩
  · simp only [h1]
    rcases index_nat_cases (G.get ⟨i, hi⟩) j with ⟨hj, h2⟩ | ⟨_, h2⟩
    · simp only [h2]
      rcases index_nat_cases m i with ⟨hi2, h3⟩ | ⟨_, h3⟩
      · simp only [h3]
        rcases assign_nat_cases (m.get ⟨i, hi2⟩) j
            (cellWillLive ((G.get ⟨i, hi⟩).get ⟨j, hj⟩) (countAlive (nearCells G i j)))
          with ⟨hj2, h4⟩ | ⟨_, h4⟩
        · right
          refine ⟨m.get ⟨i, hi2⟩,
            cellWillLive ((G.get ⟨i, hi⟩).get ⟨j, hj⟩) (countAlive (nearCells G i j)),
            by simp [List.getElem?_eq_getElem hi2], hj2, ?_⟩
          simp only [h4]
          exact assign_natCast m i _ hi2
        · left; simp only [h4]
      · left; simp only [h3]
    · left; simp only [h2]
  · left; simp only [h1]

theorem newGenCell_error_kind (G : Matrix) (i j : Nat) (m : Matrix) (e : GoError)
    (h : newGenCell G i j m = .error e) : e = .indexOutOfRange := by
  rcases newGenCell_cases G i j m with h1 | ⟨_, _, _, _, h1⟩
  · rw [h1] at h
    cases h
    rfl
  · rw [h1] at h
    cases h

theorem newGenRowIn_error_kind (colOrder : Nat → List Nat) (G : Matrix) (i : Nat) (m : Matrix)
    (e : GoError) (h : newGenRowIn colOrder G i m = .error e) : e = .indexOutOfRange := by
  simp only [newGenRowIn, bind, Except.bind] at h
  cases h1 : index G 0 with
  | error e1 =>
    simp only [h1] at h
    cases h
    exact index_error_kind G 0 e h1
  | ok row0 =>
    simp only [h1] at h
    cases h2 : assign m i (makeBools row0.length) with
    | error e2 =>
      simp only [h2] at h
      cases h
      exact assign_error_kind m i _ e h2
    | ok m1 =>
      simp only [h2] at h
      cases h3 : index G i with
      | error e3 =>
        simp only [h3] at h
        cases h
        exact index_error_kind G i e h3
      | ok row =>
        simp only [h3] at h
        exact forEach_error_kind (fun e => e = .indexOutOfRange) _ _
          (fun k s e' hk => newGenCell_error_kind G i k s e' hk) m1 e h

theorem matrixNewGenIn_error_kind (rowOrder : Nat → List Nat) (colOrder : Nat → Nat → List Nat)
    (G : Matrix) (e : GoError) (h : matrixNewGenIn rowOrder colOrder G = .error e) :
    e = .indexOutOfRange :=
  forEach_error_kind (fun e => e = .indexOutOfRange) _ _
    (fun k s e' hk => newGenRowIn_error_kind (colOrder k) G k s e' hk) _ e h

/-- The outer round of a row longer than row 0 fails, whatever the output grid
holds and in whatever order the columns are visited. -/
theorem newGenRowIn_fails (colOrder : Nat → List Nat) (G : Matrix) (i : Nat)
    (hbad : (G[0]?.getD []).length < (G[i]?.getD []).length)
    (hcol : (G[0]?.getD []).length ∈ colOrder (G[i]?.getD []).length) (m : Matrix) :
    ∃ e, newGenRowIn colOrder G i m = .error e := by
  have hi : i < G.length := by
    by_contra hc
    rw [List.getElem?_eq_none (show G.length ≤ i by omega)] at hbad
    simp at hbad
  have h0 : 0 < G.length := by omega
  have hrow : G[i]? = some (G.get ⟨i, hi⟩) := List.getElem?_eq_getElem hi
  have hrow0 : G[0]? = some (G.get ⟨0, h0⟩) := List.getElem?_eq_getElem h0
  simp only [hrow, hrow0, Option.getD_some] at hbad hcol
  simp only [newGenRowIn, bind, Except.bind]
  rw [show index G 0 = .ok (G.get ⟨0, h0⟩) from index_natCast G 0 h0]
  simp only []
  rcases assign_nat_cases m i (makeBools (G.get ⟨0, h0⟩).length) with ⟨hi2, h2⟩ | ⟨_, h2⟩
  · simp only [h2, index_natCast G i hi]
    refine forEach_fails (fun s => ∀ r, s[i]? = some r → r.length = (G.get ⟨0, h0⟩).length)
      _ (newGenCell G i) _ hcol ?_ ?_ _ ?_
    · intro k s s' hs hk r hr
      rcases newGenCell_cases G i k s with h1 | ⟨r2, v, hr2, hk2, h1⟩
      · rw [h1] at hk
        cases hk
      · rw [h1] at hk
        cases hk
        have hlt : i < s.length := by
          by_contra hc
          rw [List.getElem?_eq_none (show s.length ≤ i by omega)] at hr2
          cases hr2
        rw [List.getElem?_set_self hlt] at hr
        cases hr
        simpa using hs r2 hr2
    · intro s hs
      rcases newGenCell_cases G i (G.get ⟨0, h0⟩).length s with h1 | ⟨r2, v, hr2, hk2, _⟩
      · exact ⟨_, h1⟩
      · have := hs r2 hr2
        omega
    · intro r hr
      rw [List.getElem?_set_self hi2] at hr
      cases hr
      simp [makeBools]
  · exact ⟨.indexOutOfRange, by simp only [h2]⟩

/-- On a grid with a row longer than row 0 the generation step fails with an
index out of range, in whatever order its loops visit the rows and columns. -/
theorem matrixNewGenIn_fails (rowOrder : Nat → List Nat) (colOrder : Nat → Nat → List Nat)
    (hrow : ∀ n, (rowOrder n).Perm (List.range n))
    (hcol : ∀ i n, (colOrder i n).Perm (List.range n)) (G : Matrix) (hbad : ¬RowsFit G) :
    matrixNewGenIn rowOrder colOrder G = .error .indexOutOfRange := by
  simp only [RowsFit, not_forall, not_le] at hbad
  obtain ⟨i, hi⟩ := hbad
  have hiG : i < G.length := by
    by_contra hc
    rw [List.getElem?_eq_none (show G.length ≤ i by omega)] at hi
    simp at hi
  have hmem : i ∈ rowOrder G.length := (hrow G.length).mem_iff.mpr (List.mem_range.mpr hiG)
  have hmem2 : (G[0]?.getD []).length ∈ colOrder i (G[i]?.getD []).length :=
    (hcol i _).mem_iff.mpr (List.mem_range.mpr hi)
  obtain ⟨e, he⟩ := forEach_fails (fun _ => True) (rowOrder G.length)
    (fun k => newGenRowIn (colOrder k) G k) i hmem (fun _ _ _ _ _ => trivial)
    (fun s _ => newGenRowIn_fails (colOrder i) G i hi hmem2 s) (makeRows G.length) trivial
  have hkind := matrixNewGenIn_error_kind rowOrder colOrder G e he
  rw [← hkind]
  exact he

/-- C15: on a grid in which some row has more cells than row 0, `matrixNewGen`
does not return a grid: it fails with an index out of range (the output row is
allocated with the length of row 0 and written at every column of the input row). -/
theorem matrixNewGen_ragged (G : Matrix) (i : Nat)
    (h : (G[0]?.getD []).length < (G[i]?.getD []).length) :
    matrixNewGen G = .error .indexOutOfRange :=
  matrixNewGenIn_fails List.range (fun _ => List.range) (fun _ => List.Perm.refl _)
    (fun _ _ => List.Perm.refl _) G (fun hfit => absurd (hfit i) (by omega))

/-- Witness for C15: a second row of two cells under a first row of one cell. -/
theorem matrixNewGen_ragged_witness :
    (([[true], [false, true]] : Matrix)[0]?.getD []).length
        < (([[true], [false, true]] : Matrix)[1]?.getD []).length ∧
    matrixNewGen [[true], [false, true]] = .error .indexOutOfRange :=
  ⟨by decide, matrixNewGen_ragged [[true], [false, true]] 1 (by decide)⟩

/-! ## The generation step in any order -/

theorem getElem?_foldl_set {α : Type} (f : Nat → α) (l : List Nat) (xs : List α) (p : Nat) :
    (l.foldl (fun r k => r.set k (f k)) xs)[p]?
      = if p ∈ l then xs[p]?.map (fun _ => f p) else xs[p]? := by
  induction l generalizing xs with
  | nil => simp
  | cons k t ih =>
    rw [List.foldl_cons, ih]
    by_cases hpk : p = k
    · subst hpk
      by_cases hlt : p < xs.length
      · simp [List.getElem?_set_self hlt, List.getElem?_eq_getElem hlt]
      · have h1 : (xs.set p (f p))[p]? = none :=
          List.getElem?_eq_none (by rw [List.length_set]; omega)
        simp [h1, List.getElem?_eq_none (show xs.length ≤ p by omega)]
    · have hkp : k ≠ p := fun h => hpk h.symm
      simp only [List.getElem?_set_ne hkp, List.mem_cons, hpk, false_or]

/-- Writing `f k` at every index `k` of an order that visits exactly the
indices below `n` fills the first `n` cells, whatever the order. -/
theorem foldl_set_filled {α : Type} (f : Nat → α) (d : α) (l : List Nat) (n N : Nat)
    (hl : ∀ k, k ∈ l ↔ k < n) (hn : n ≤ N) :
    l.foldl (fun r k => r.set k (f k)) (List.replicate N d)
      = (List.range n).map f ++ List.replicate (N - n) d := by
  refine List.ext_getElem? ?_
  intro p
  rw [getElem?_foldl_set]
  by_cases hp : p < n
  · rw [if_pos ((hl p).mpr hp), List.getElem?_append_left (by simpa using hp)]
    simp [List.getElem?_replicate, show p < N by omega, List.getElem?_range hp]
  · rw [if_neg (fun h => hp ((hl p).mp h)), List.getElem?_append_right (by simp; omega)]
    simp only [List.getElem?_replicate, List.length_map, List.length_range]
    by_cases hpN : p < N
    · rw [if_pos hpN, if_pos (by omega)]
    · rw [if_neg hpN, if_neg (by omega)]

theorem newGenCell_ok (G : Matrix) (i j : Nat) (row : List Bool) (hrow : G[i]? = some row)
    (hj : j < row.length) (m : Matrix) (hi : i < m.length) (r : List Bool) (hr : j < r.length) :
    newGenCell G i j (m.set i r) = .ok (m.set i (r.set j (nextCell G i j))) := by
  have hiG : i < G.length := by
    by_contra hc
    rw [List.getElem?_eq_none (by omega)] at hrow
    cases hrow
  have hGi : G.get ⟨i, hiG⟩ = row := by
    have := List.getElem?_eq_getElem hiG
    rw [hrow] at this
    exact (Option.some.inj this).symm
  have hcell : row.get ⟨j, hj⟩ = cell G i j :=
    (cell_natCast G i j row hrow _ (List.getElem?_eq_getElem hj)).symm
  have hlen : i < (m.set i r).length := by simpa using hi
  simp only [newGenCell, matrixCountNearAlive_eq, index_natCast G i hiG, hGi,
    index_natCast row j hj, index_natCast _ i hlen, bind, Except.bind, hcell]
  simp only [List.get_eq_getElem, List.getElem_set_self]
  rw [assign_natCast _ j _ hr]
  dsimp only
  rw [assign_natCast _ i _ hlen, List.set_set]
  rfl

theorem newGenCell_forEach (G : Matrix) (i : Nat) (row : List Bool) (hrow : G[i]? = some row)
    (cs : List Nat) (hcs : ∀ j ∈ cs, j < row.length) (m : Matrix) (hi : i < m.length)
    (r : List Bool) (hr : row.length ≤ r.length) :
    forEach cs (newGenCell G i) (m.set i r)
      = .ok (m.set i (cs.foldl (fun r j => r.set j (nextCell G i j)) r)) := by
  induction cs generalizing r with
  | nil => rfl
  | cons c t ih =>
    have hc : c < row.length := hcs c (List.mem_cons_self _ _)
    rw [forEach_cons, newGenCell_ok G i c row hrow hc m hi r (by omega)]
    exact ih (fun j hj => hcs j (List.mem_cons_of_mem _ hj)) _ (by simpa using hr)

theorem newGenRowIn_ok (colOrder : Nat → List Nat) (hcol : ∀ n, (colOrder n).Perm (List.range n))
    (G : Matrix) (i : Nat) (hi : i < G.length)
    (hW : (G[i]?.getD []).length ≤ (G[0]?.getD []).length) (m : Matrix) (hi2 : i < m.length) :
    newGenRowIn colOrder G i m = .ok (m.set i (nextRow G i)) := by
  have h0 : 0 < G.length := by omega
  have hrow : G[i]? = some (G.get ⟨i, hi⟩) := List.getElem?_eq_getElem hi
  have hrow0 : G[0]? = some (G.get ⟨0, h0⟩) := List.getElem?_eq_getElem h0
  simp only [hrow, hrow0, Option.getD_some] at hW
  have hmem : ∀ k, k ∈ colOrder (G.get ⟨i, hi⟩).length ↔ k < (G.get ⟨i, hi⟩).length :=
    fun k => by rw [(hcol _).mem_iff, List.mem_range]
  have hloop := newGenCell_forEach G i (G.get ⟨i, hi⟩) hrow (colOrder (G.get ⟨i, hi⟩).length)
    (fun j hj => (hmem j).mp hj) m hi2 (makeBools (G.get ⟨0, h0⟩).length)
    (by simpa [makeBools] using hW)
  rw [makeBools, foldl_set_filled (nextCell G i) false _ _ _ hmem hW] at hloop
  simp only [newGenRowIn, index_natCast G i hi, bind, Except.bind]
  rw [show index G 0 = .ok (G.get ⟨0, h0⟩) from index_natCast G 0 h0]
  simp only [assign_natCast m i _ hi2, makeBools, hloop, nextRow, hrow, hrow0,
    Option.getD_some]

theorem newGenRowIn_forEach (colOrder : Nat → Nat → List Nat)
    (hcol : ∀ i n, (colOrder i n).Perm (List.range n)) (G : Matrix) (hfit : RowsFit G)
    (rs : List Nat) (hrs : ∀ i ∈ rs, i < G.length) (m : Matrix) (hm : m.length = G.length) :
    forEach rs (fun i => newGenRowIn (colOrder i) G i) m
      = .ok (rs.foldl (fun m i => m.set i (nextRow G i)) m) := by
  induction rs generalizing m with
  | nil => rfl
  | cons k t ih =>
    have hk : k < G.length := hrs k (List.mem_cons_self _ _)
    rw [forEach_cons, newGenRowIn_ok (colOrder k) (hcol k) G k hk (hfit k) m (by omega)]
    exact ih (fun i hi => hrs i (List.mem_cons_of_mem _ hi)) _ (by simpa using hm)

/-- On a grid none of whose rows is longer than row 0, the generation step
returns the same grid in whatever order its loops visit the rows and columns. -/
theorem matrixNewGenIn_eq (rowOrder : Nat → List Nat) (colOrder : Nat → Nat → List Nat)
    (hrow : ∀ n, (rowOrder n).Perm (List.range n))
    (hcol : ∀ i n, (colOrder i n).Perm (List.range n)) (G : Matrix) (hfit : RowsFit G) :
    matrixNewGenIn rowOrder colOrder G = .ok ((List.range G.length).map (nextRow G)) := by
  have hmem : ∀ k, k ∈ rowOrder G.length ↔ k < G.length :=
    fun k => by rw [(hrow _).mem_iff, List.mem_range]
  rw [matrixNewGenIn, newGenRowIn_forEach colOrder hcol G hfit _ (fun i hi => (hmem i).mp hi) _
    (by simp [makeRows]), makeRows, foldl_set_filled (nextRow G) [] _ _ _ hmem (le_refl _)]
  simp

/-- The generation step does not depend on the order in which its loops visit
the rows and the columns, on any grid. -/
theorem matrixNewGenIn_eq_matrixNewGen (rowOrder : Nat → List Nat)
    (colOrder : Nat → Nat → List Nat) (hrow : ∀ n, (rowOrder n).Perm (List.range n))
    (hcol : ∀ i n, (colOrder i n).Perm (List.range n)) (G : Matrix) :
    matrixNewGenIn rowOrder colOrder G = matrixNewGen G := by
  by_cases hfit : RowsFit G
  · rw [matrixNewGenIn_eq rowOrder colOrder hrow hcol G hfit, matrixNewGen_eq G hfit]
  · rw [matrixNewGenIn_fails rowOrder colOrder hrow hcol G hfit, ← matrixNewGenIn_range,
      matrixNewGenIn_fails List.range (fun _ => List.range) (fun _ => List.Perm.refl _)
        (fun _ _ => List.Perm.refl _) G hfit]

/-- C11: `matrixNewGen` is a function of its input grid alone: equal grids give
equal results after one step and after two, and the result is the same in
whatever order the loops of one step visit the rows and the columns. -/
theorem matrixNewGen_deterministic (G1 G2 : Matrix) (h : G1 = G2) :
    matrixNewGen G1 = matrixNewGen G2 ∧
    (matrixNewGen G1 >>= matrixNewGen) = (matrixNewGen G2 >>= matrixNewGen) ∧
    ∀ (rowOrder : Nat → List Nat) (colOrder : Nat → Nat → List Nat),
      (∀ n, (rowOrder n).Perm (List.range n)) → (∀ i n, (colOrder i n).Perm (List.range n)) →
      matrixNewGenIn rowOrder colOrder G1 = matrixNewGen G2 := by
  subst h
  exact ⟨rfl, rfl, fun rowOrder colOrder hrow hcol =>
    matrixNewGenIn_eq_matrixNewGen rowOrder colOrder hrow hcol G1⟩

/-- Witness for C11: the L-shaped grid, also with rows and columns visited last to first. -/
theorem matrixNewGen_deterministic_witness :
    matrixNewGenIn (fun n => (List.range n).reverse) (fun _ n => (List.range n).reverse) lGrid
      = .ok blockGrid ∧
    (matrixNewGen lGrid = matrixNewGen lGrid ∧
    (matrixNewGen lGrid >>= matrixNewGen) = (matrixNewGen lGrid >>= matrixNewGen) ∧
    ∀ (rowOrder : Nat → List Nat) (colOrder : Nat → Nat → List Nat),
      (∀ n, (rowOrder n).Perm (List.range n)) → (∀ i n, (colOrder i n).Perm (List.range n)) →
      matrixNewGenIn rowOrder colOrder lGrid = matrixNewGen lGrid) :=
  ⟨by decide, matrixNewGen_deterministic lGrid lGrid rfl⟩

/-! ## Locality -/

theorem nextCell_congr (G1 G2 : Matrix) (i j : Nat)
    (h : ∀ d ∈ blockOffsets, cell G1 (i + d.1) (j + d.2) = cell G2 (i + d.1) (j + d.2)) :
    nextCell G1 i j = nextCell G2 i j := by
  have h0 := h (-1, -1) (by decide)
  have h1 := h (-1, 0) (by decide)
  have h2 := h (-1, 1) (by decide)
  have h3 := h (0, -1) (by decide)
  have h4 := h (0, 0) (by decide)
  have h5 := h (0, 1) (by decide)
  have h6 := h (1, -1) (by decide)
  have h7 := h (1, 0) (by decide)
  have h8 := h (1, 1) (by decide)
  simp only [Int.add_zero] at h0 h1 h2 h3 h4 h5 h6 h7 h8
  simp only [nextCell, nearCells, Int.sub_eq_add_neg, h0, h1, h2, h3, h4, h5, h6, h7, h8]

/-- C16: locality.  On two rectangular grids of the same dimensions that agree
on every in-bounds position of the 3-by-3 block around an in-bounds cell
`(i, j)`, the next generations agree at `(i, j)`. -/
theorem matrixNewGen_local (G1 G2 : Matrix) (H W : Nat) (h1 : Rect G1 H W) (h2 : Rect G2 H W)
    (i j : Nat) (hi : i < H) (hj : j < W)
    (hagree : ∀ d ∈ blockOffsets, inGrid H W (i + d.1) (j + d.2) →
      (aliveAt G1 (i + d.1) (j + d.2) ↔ aliveAt G2 (i + d.1) (j + d.2))) :
    ∃ N1 N2 v, matrixNewGen G1 = .ok N1 ∧ matrixNewGen G2 = .ok N2 ∧
      index2 N1 i j = .ok v ∧ index2 N2 i j = .ok v := by
  refine ⟨nextGrid G1 H W, nextGrid G2 H W, nextCell G1 i j, matrixNewGen_rect h1,
    matrixNewGen_rect h2, index2_nextGrid G1 H W i j hi hj, ?_⟩
  rw [index2_nextGrid G2 H W i j hi hj]
  refine congrArg Except.ok (nextCell_congr G1 G2 i j ?_).symm
  intro d hd
  rw [cell_rect h1, cell_rect h2]
  by_cases hin : inGrid H W (i + d.1) (j + d.2)
  · simp [hin, hagree d hd hin]
  · simp [hin]

/-- Witness for C16: two 4-by-4 grids that differ only at `(3, 3)`, seen from `(0, 0)`. -/
theorem matrixNewGen_local_witness :
    (Rect cornerGrid 4 4 ∧ Rect cornersGrid 4 4 ∧ cornerGrid ≠ cornersGrid) ∧
    ∃ N1 N2 v, matrixNewGen cornerGrid = .ok N1 ∧ matrixNewGen cornersGrid = .ok N2 ∧
      index2 N1 (0 : Nat) (0 : Nat) = .ok v ∧ index2 N2 (0 : Nat) (0 : Nat) = .ok v :=
  ⟨by decide, matrixNewGen_local cornerGrid cornersGrid 4 4 (by decide) (by decide) 0 0
    (by decide) (by decide) (by decide)⟩

/-! ## Reflection -/

theorem Rect.reverse {G : Matrix} {H W : Nat} (hR : Rect G H W) : Rect G.reverse H W :=
  ⟨by simp [hR.1], fun row hrow => hR.2 row (List.mem_reverse.mp hrow)⟩

/-- Row `a` of the reflected grid is row `a'` of the grid when `a + a' = H - 1`. -/
theorem cell_reverse (G : Matrix) (a a' b : Int) (h : a + a' = (G.length : Int) - 1) :
    cell G.reverse a b = cell G a' b := by
  by_cases ha : 0 ≤ a ∧ a < G.length
  · have hlt : a.toNat < G.length := by omega
    have hidx : G.length - 1 - a.toNat = a'.toNat := by omega
    have ha' : 0 ≤ a' := by omega
    simp [cell, List.getElem?_reverse hlt, hidx, ha.1, ha']
  · rw [cell_false_row G.reverse a b (by simp; omega), cell_false_row G a' b (by omega)]

theorem countAlive_swap (c0 c1 c2 c3 c4 c5 c6 c7 : Bool) :
    countAlive [c5, c6, c7, c3, c4, c0, c1, c2] = countAlive [c0, c1, c2, c3, c4, c5, c6, c7] := by
  simp only [countAlive_eq, List.countP_cons, List.countP_nil]
  omega

theorem nextCell_reverse (G : Matrix) (i i' j : Nat) (h : i + i' + 1 = G.length) :
    nextCell G.reverse i j = nextCell G i' j := by
  have hc : ∀ (a a' b : Int), a + a' = (G.length : Int) - 1 →
      cell G.reverse a b = cell G a' b := cell_reverse G
  simp only [nextCell, nearCells]
  rw [hc i i' j (by omega), hc (i - 1) (i' + 1) (j - 1) (by omega),
    hc (i - 1) (i' + 1) j (by omega),
    hc (i - 1) (i' + 1) (j + 1) (by omega), hc i i' (j - 1) (by omega), hc i i' (j + 1) (by omega),
    hc (i + 1) (i' - 1) (j - 1) (by omega), hc (i + 1) (i' - 1) j (by omega),
    hc (i + 1) (i' - 1) (j + 1) (by omega), countAlive_swap]

theorem nextGrid_reverse (G : Matrix) (H W : Nat) (hH : G.length = H) :
    nextGrid G.reverse H W = (nextGrid G H W).reverse := by
  refine List.ext_getElem (by simp [nextGrid]) ?_
  intro n h1 h2
  have hn : n < H := by simpa [nextGrid] using h1
  rw [List.getElem_reverse]
  simp only [nextGrid, List.getElem_map, List.getElem_range, List.length_map, List.length_range]
  refine List.map_congr_left ?_
  intro j _
  exact nextCell_reverse G n (H - 1 - n) j (by omega)

/-- C19: mirror symmetry.  On a rectangular grid, the generation step of the
grid with its rows in reverse order is the generation step of the grid, with
its rows in reverse order. -/
theorem matrixNewGen_reverse (G : Matrix) (H W : Nat) (hR : Rect G H W) :
    ∃ N, matrixNewGen G = .ok N ∧ matrixNewGen G.reverse = .ok N.reverse := by
  refine ⟨nextGrid G H W, matrixNewGen_rect hR, ?_⟩
  rw [matrixNewGen_rect hR.reverse, nextGrid_reverse G H W hR.1]

/-- Witness for C19: the L-shaped 3-by-3 grid. -/
theorem matrixNewGen_reverse_witness :
    Rect lGrid 3 3 ∧ ∃ N, matrixNewGen lGrid = .ok N ∧ matrixNewGen lGrid.reverse = .ok N.reverse :=
  ⟨by decide, matrixNewGen_reverse lGrid 3 3 (by decide)⟩

/-! ## Injectivity of rendering -/

theorem glyph_ne_newline (b : Bool) : glyph b ≠ '\n' := by
  cases b <;> decide

theorem glyph_injective (a b : Bool) (h : glyph a = glyph b) : a = b := by
  cases a <;> cases b <;> first | rfl | (exact absurd h (by decide))

/-- A line determines its row and what follows it. -/
theorem renderLine_append_cancel (r1 r2 : List Bool) (t1 t2 : List Char)
    (h : renderLine r1 ++ t1 = renderLine r2 ++ t2) : r1 = r2 ∧ t1 = t2 := by
  induction r1 generalizing r2 with
  | nil =>
    cases r2 with
    | nil => simpa [renderLine] using h
    | cons b r2 =>
      simp only [renderLine, List.map_nil, List.nil_append, List.map_cons, List.cons_append,
        List.cons.injEq] at h
      exact absurd h.1.symm (glyph_ne_newline b)
  | cons a r1 ih =>
    cases r2 with
    | nil =>
      simp only [renderLine, List.map_nil, List.nil_append, List.map_cons, List.cons_append,
        List.cons.injEq] at h
      exact absurd h.1 (glyph_ne_newline a)
    | cons b r2 =>
      simp only [renderLine, List.map_cons, List.cons_append, List.cons.injEq] at h
      obtain ⟨hab, hrest⟩ := h
      obtain ⟨hr, ht⟩ := ih r2 (by simpa [renderLine] using hrest)
      exact ⟨by rw [glyph_injective a b hab, hr], ht⟩

theorem renderLines_injective (G1 G2 : Matrix)
    (h : (G1.map renderLine).flatten = (G2.map renderLine).flatten) : G1 = G2 := by
  induction G1 generalizing G2 with
  | nil =>
    cases G2 with
    | nil => rfl
    | cons r2 t2 =>
      have hlen := congrArg List.length h
      simp only [List.map_nil, List.flatten_nil, List.length_nil, List.map_cons,
        List.flatten_cons, List.length_append, renderLine, List.length_cons] at hlen
      omega
  | cons r1 t1 ih =>
    cases G2 with
    | nil =>
      have hlen := congrArg List.length h
      simp only [List.map_nil, List.flatten_nil, List.length_nil, List.map_cons,
        List.flatten_cons, List.length_append, renderLine, List.length_cons] at hlen
      omega
    | cons r2 t2 =>
      simp only [List.map_cons, List.flatten_cons] at h
      obtain ⟨hr, ht⟩ := renderLine_append_cancel r1 r2 _ _ h
      rw [hr, ih t2 ht]

/-- C18: `gridRender` is injective on all grids, rectangular or not, the grid
with no rows and grids with empty rows included: equal renderings come from
equal grids. -/
theorem gridRender_injective (G1 G2 : Matrix) (h : gridRender G1 = gridRender G2) : G1 = G2 := by
  have hd := congrArg String.data h
  rw [gridRender_data, gridRender_data] at hd
  exact renderLines_injective G1 G2 hd

/-- Witness for C18: the grid with no rows and the grid with one empty row
render differently, and a grid renders like itself only. -/
theorem gridRender_injective_witness :
    gridRender [] ≠ gridRender [[]] ∧ (gridRender [[], [true]] = gridRender [[], [true]] ∧
      ([[], [true]] : Matrix) = [[], [true]]) :=
  ⟨by decide, rfl, gridRender_injective [[], [true]] [[], [true]] rfl⟩

/-! ## The initial grid -/

theorem makeSlice_ok {α : Type} (rt : Runtime) (call elemSize : Nat) (n : Int) (zero : α)
    (h : 0 ≤ n) (hcan : CanMake rt call elemSize n) :
    makeSlice rt call elemSize n zero = .ok (List.replicate n.toNat zero) := by
  obtain ⟨h1, h2, h3⟩ := hcan
  unfold makeSlice
  rw [if_neg (by omega), if_neg (by omega), if_pos h3]

theorem makeSlice_overflow {α : Type} (rt : Runtime) (call elemSize : Nat) (n : Int) (zero : α)
    (h : 2 ^ 64 ≤ elemSize * n.toNat) :
    makeSlice rt call elemSize n zero = .error .makeLenOutOfRange := by
  unfold makeSlice
  split
  · rfl
  · rw [if_pos (Or.inl h)]

theorem RandBool_three (raw : Nat) : RandBool 3 raw = .ok (decide ((raw : Int) % 3 = 1)) := by
  simp only [RandBool, randIntn, bind, Except.bind, pure, Except.pure]
  rw [if_neg (by decide)]
  rfl

theorem set_get_self {α : Type} (xs : List α) (i : Nat) (h : i < xs.length) (v : α)
    (hv : xs.get ⟨i, h⟩ = v) : xs.set i v = xs := by
  refine List.ext_getElem? ?_
  intro p
  by_cases hp : i = p
  · subst hp
    rw [List.getElem?_set_self h, List.getElem?_eq_getElem h, ← hv]
    rfl
  · rw [List.getElem?_set_ne hp]

/-- The inner init loop of `matrixMake` on row `i`, started at call number `k`. -/
theorem matrixMakeCell_loop (draws : Nat → Nat) (W i : Nat) (m : Matrix) (hi : i < m.length)
    (k : Nat) :
    forRange W (matrixMakeCell draws i) (m.set i (List.replicate W false), k)
      = .ok (m.set i ((List.range W).map fun j => decide ((draws (k + j) : Int) % 3 = 1)),
          k + W) := by
  obtain ⟨s, hs, hinv⟩ := forRange_inv
    (fun j st => st = (m.set i ((List.range j).map
        (fun j => decide ((draws (k + j) : Int) % 3 = 1)) ++ List.replicate (W - j) false), k + j))
    W (matrixMakeCell draws i) (m.set i (List.replicate W false), k) (by simp) (by
      intro j st hj hst
      subst hst
      have hlen : i < (m.set i ((List.range j).map
          (fun j => decide ((draws (k + j) : Int) % 3 = 1))
          ++ List.replicate (W - j) false)).length := by simpa using hi
      have hjl : j < ((List.range j).map (fun j => decide ((draws (k + j) : Int) % 3 = 1))
          ++ List.replicate (W - j) false).length := by simp; omega
      refine ⟨_, ?_, rfl⟩
      simp only [matrixMakeCell, RandBool_three, index_natCast _ i hlen, bind, Except.bind]
      simp only [List.get_eq_getElem, List.getElem_set_self]
      rw [assign_natCast _ j _ hjl]
      dsimp only
      rw [assign_natCast _ i _ hlen, List.set_set]
      dsimp only [pure, Except.pure]
      rw [set_filled (fun j => decide ((draws (k + j) : Int) % 3 = 1)) false j W hj]
      rfl)
  rw [hs, hinv]
  simp

theorem matrixMakeRow_eq (draws : Nat → Nat) (H W i : Nat) (hi : i < H) :
    matrixMakeRow draws i ((List.range i).map (fun i => (List.range W).map (madeCell draws W i))
        ++ List.replicate (H - i) (List.replicate W false), i * W)
      = .ok ((List.range (i + 1)).map (fun i => (List.range W).map (madeCell draws W i))
        ++ List.replicate (H - (i + 1)) (List.replicate W false), (i + 1) * W) := by
  have hlen : i < ((List.range i).map (fun i => (List.range W).map (madeCell draws W i))
      ++ List.replicate (H - i) (List.replicate W false)).length := by simp; omega
  have hget : ((List.range i).map (fun i => (List.range W).map (madeCell draws W i))
      ++ List.replicate (H - i) (List.replicate W false)).get ⟨i, hlen⟩
        = List.replicate W false := by
    simp [List.getElem_append_right]
  have hset : ((List.range i).map (fun i => (List.range W).map (madeCell draws W i))
      ++ List.replicate (H - i) (List.replicate W false)).set i (List.replicate W false)
        = (List.range i).map (fun i => (List.range W).map (madeCell draws W i))
          ++ List.replicate (H - i) (List.replicate W false) := by
    exact set_get_self _ i hlen _ hget
  have hloop := matrixMakeCell_loop draws W i _ hlen (i * W)
  rw [hset] at hloop
  simp only [matrixMakeRow, index_natCast _ i hlen, hget, bind, Except.bind, List.length_replicate,
    hloop]
  have hrow : ((List.range W).map fun j => decide ((draws (i * W + j) : Int) % 3 = 1))
      = (List.range W).map (madeCell draws W i) := rfl
  rw [hrow, set_filled (fun i => (List.range W).map (madeCell draws W i)) _ i H hi,
    Nat.succ_mul]

/-- The grid `matrixMake` returns, for non-negative dimensions. -/
theorem matrixMake_eq (rt : Runtime) (h w : Int) (hh : 0 ≤ h) (hw : 0 ≤ w)
    (hrows : CanMake rt 0 sliceBytes h)
    (hcells : ∀ i, i < h.toNat → CanMake rt (i + 1) boolBytes w) (draws : Nat → Nat) :
    matrixMake rt h w draws = .ok (madeGrid draws h.toNat w.toNat) := by
  obtain ⟨m1, hm1, hinv1⟩ := forRange_inv
    (fun i (m : Matrix) => m = (List.range i).map (fun _ => List.replicate w.toNat false)
        ++ List.replicate (h.toNat - i) [])
    h.toNat (matrixMakeAlloc rt w) (List.replicate h.toNat []) (by simp) (by
      intro i m hi hm
      subst hm
      refine ⟨_, ?_, rfl⟩
      simp only [matrixMakeAlloc, makeSlice_ok rt (i + 1) boolBytes w false hw (hcells i hi),
        bind, Except.bind]
      rw [assign_natCast _ i _ (by simp; omega),
        set_filled (fun _ => List.replicate w.toNat false) [] i h.toNat hi])
  obtain ⟨st, hst, hinv2⟩ := forRange_inv
    (fun i (st : Matrix × Nat) => st = ((List.range i).map
        (fun i => (List.range w.toNat).map (madeCell draws w.toNat i))
        ++ List.replicate (h.toNat - i) (List.replicate w.toNat false), i * w.toNat))
    h.toNat (matrixMakeRow draws) (List.replicate h.toNat (List.replicate w.toNat false), 0)
    (by simp) (by
      intro i s hi hs
      subst hs
      exact ⟨_, matrixMakeRow_eq draws h.toNat w.toNat i hi, rfl⟩)
  have hm1' : m1 = List.replicate h.toNat (List.replicate w.toNat false) := by
    rw [hinv1]
    simp [List.map_const']
  simp only [matrixMake, makeSlice_ok rt 0 sliceBytes h _ hh hrows, bind, Except.bind,
    List.length_replicate, hm1, hm1', hst, hinv2, pure, Except.pure, madeGrid]
  simp

theorem madeGrid_rect (draws : Nat → Nat) (H W : Nat) : Rect (madeGrid draws H W) H W := by
  constructor
  · simp [madeGrid]
  · intro row hrow
    simp only [madeGrid, List.mem_map] at hrow
    obtain ⟨i, _, rfl⟩ := hrow
    simp

theorem index2_madeGrid (draws : Nat → Nat) (H W i j : Nat) (hi : i < H) (hj : j < W) :
    index2 (madeGrid draws H W) i j = .ok (madeCell draws W i j) := by
  have hi' : i < (madeGrid draws H W).length := by simpa [madeGrid] using hi
  have hrow : (madeGrid draws H W).get ⟨i, hi'⟩ = (List.range W).map (madeCell draws W i) := by
    simp [madeGrid]
  have hj' : j < ((List.range W).map (madeCell draws W i)).length := by simpa using hj
  simp only [index2, index_natCast _ i hi', bind, Except.bind, hrow, index_natCast _ j hj']
  simp

/-- C12, amended: for `h > 0` and `w > 0` whose slices `make` can allocate,
and for every outcome of the random draws, `matrixMake h w` returns a grid of
`h` rows of `w` cells; the cell `(i, j)` holds the result of one call
`RandBool(3)`, the call number `i * w + j`, which is true exactly when the
integer drawn in `{0, 1, 2}` is 1. -/
theorem matrixMake_spec (rt : Runtime) (h w : Int) (hh : 0 < h) (hw : 0 < w)
    (hrows : CanMake rt 0 sliceBytes h)
    (hcells : ∀ i, i < h.toNat → CanMake rt (i + 1) boolBytes w) (draws : Nat → Nat) :
    ∃ G, matrixMake rt h w draws = .ok G ∧ Rect G h.toNat w.toNat ∧
      ∀ i j : Nat, i < h.toNat → j < w.toNat →
        ∃ r : Int, randIntn 3 (draws (i * w.toNat + j)) = .ok r ∧ (r = 0 ∨ r = 1 ∨ r = 2) ∧
          RandBool 3 (draws (i * w.toNat + j)) = .ok (decide (r = 1)) ∧
          index2 G i j = .ok (decide (r = 1)) := by
  refine ⟨madeGrid draws h.toNat w.toNat,
    matrixMake_eq rt h w (le_of_lt hh) (le_of_lt hw) hrows hcells draws,
    madeGrid_rect draws _ _, ?_⟩
  intro i j hi hj
  refine ⟨(draws (i * w.toNat + j) : Int) % 3, by simp [randIntn], by omega, RandBool_three _,
    index2_madeGrid draws _ _ i j hi hj⟩

/-- Witness for C12: a 2-by-3 grid made from the outcomes 0, 1, 2, 3, 4, 5. -/
theorem matrixMake_spec_witness :
    matrixMake linuxRuntime 2 3 (fun k => k)
      = .ok [[false, true, false], [false, true, false]] ∧
    ∃ G, matrixMake linuxRuntime 2 3 (fun k => k) = .ok G ∧
      Rect G (2 : Int).toNat (3 : Int).toNat ∧
      ∀ i j : Nat, i < (2 : Int).toNat → j < (3 : Int).toNat →
        ∃ r : Int, randIntn 3 ((fun k => k) (i * (3 : Int).toNat + j)) = .ok r ∧
          (r = 0 ∨ r = 1 ∨ r = 2) ∧
          RandBool 3 ((fun k => k) (i * (3 : Int).toNat + j)) = .ok (decide (r = 1)) ∧
          index2 G i j = .ok (decide (r = 1)) :=
  ⟨by decide, matrixMake_spec linuxRuntime 2 3 (by decide) (by decide) (by decide) (by decide)
    (fun k => k)⟩

/-- A runtime without memory: `matrixMake` stops at its first `make`. -/
theorem matrixMake_outOfMemory :
    matrixMake ⟨2 ^ 48, fun _ _ => false⟩ 2 3 (fun k => k) = .error .outOfMemory := by
  decide

/-- C12, as stated, fails: `2^62 > 0` and `1 > 0`, but `matrixMake(1<<62, 1)`
returns no grid, on a runtime with memory for every allocation too: the size
of `make([][]bool, 1<<62)` overflows and `make` panics.  So it does at
`matrixMake(1<<45, 1)`, whose size exceeds `maxAlloc`. -/
theorem matrixMake_huge :
    (0 : Int) < 2 ^ 62 ∧ (0 : Int) < 1 ∧
    matrixMake linuxRuntime (2 ^ 62) 1 (fun k => k) = .error .makeLenOutOfRange ∧
    (¬∃ G, matrixMake linuxRuntime (2 ^ 62) 1 (fun k => k) = .ok G) ∧
    matrixMake linuxRuntime (2 ^ 45) 1 (fun k => k) = .error .makeLenOutOfRange := by
  have h : matrixMake linuxRuntime (2 ^ 62) 1 (fun k => k) = .error .makeLenOutOfRange := by
    unfold matrixMake
    rw [makeSlice_overflow linuxRuntime 0 sliceBytes (2 ^ 62) _ (by decide)]
    rfl
  refine ⟨by decide, by decide, h, ?_, by decide⟩
  rintro ⟨G, hG⟩
  rw [h] at hG
  cases hG

/-! ## The driver -/

theorem nextGridTimes_succ (H W n : Nat) (G : Matrix) :
    nextGridTimes H W (n + 1) G = nextGrid (nextGridTimes H W n G) H W :=
  Function.iterate_succ_apply' _ n G

theorem nextGridTimes_rect (H W n : Nat) (G : Matrix) (hR : Rect G H W) :
    Rect (nextGridTimes H W n G) H W := by
  cases n with
  | zero => exact hR
  | succ k => rw [nextGridTimes_succ]; exact nextGrid_rect _ H W

theorem newGenTimes_eq (H W n : Nat) : ∀ (G : Matrix), Rect G H W →
    newGenTimes n G = .ok (nextGridTimes H W n G) := by
  induction n with
  | zero => intro G _; rfl
  | succ k ih =>
    intro G hR
    simp only [newGenTimes, matrixNewGen_rect hR, bind, Except.bind]
    exact ih _ (nextGrid_rect G H W)

theorem mainLoop_eq (n : Nat) (G0 : Matrix) (H W : Nat) (hR : Rect G0 H W) :
    mainLoop n G0 = .ok ((List.range n).map fun i =>
      [gridRender (nextGridTimes H W (i + 1) G0),
        "generation " ++ toString i ++ " of 300 \n"]).flatten := by
  obtain ⟨st, hst, hinv⟩ := forRange_inv
    (fun i (st : Matrix × List String) => st = (nextGridTimes H W i G0,
      ((List.range i).map fun i =>
        [gridRender (nextGridTimes H W (i + 1) G0),
          "generation " ++ toString i ++ " of 300 \n"]).flatten))
    n mainStep (G0, []) (by simp [nextGridTimes]) (by
      intro i s _ hs
      subst hs
      refine ⟨_, ?_, rfl⟩
      simp only [mainStep, matrixNewGen_rect (nextGridTimes_rect H W i G0 hR), bind, Except.bind,
        pure, Except.pure, ← nextGridTimes_succ, generationLine]
      simp [List.range_succ])
  simp only [mainLoop, hst, hinv, bind, Except.bind, pure, Except.pure]

/-- The loop of `main` on a rectangular grid: 300 rounds, each writing the next
generation and its counter line. -/
theorem mainFrom_eq (G0 : Matrix) (H W : Nat) (hR : Rect G0 H W) :
    mainFrom G0 = .ok ((List.range 300).map fun i =>
      [gridRender (nextGridTimes H W (i + 1) G0),
        "generation " ++ toString i ++ " of 300 \n"]).flatten :=
  mainLoop_eq 300 G0 H W hR

theorem matrixMake_main (rt : Runtime) (hrows : CanMake rt 0 sliceBytes 10)
    (hcells : ∀ i, i < 10 → CanMake rt (i + 1) boolBytes 20) (draws : Nat → Nat) :
    matrixMake rt 10 20 draws = .ok (madeGrid draws 10 20) :=
  matrixMake_eq rt 10 20 (by decide) (by decide) hrows hcells draws

theorem ok_bind {α β : Type} (x : α) (f : α → Except GoError β) :
    (Except.ok x >>= f) = f x := rfl

theorem main_eq (rt : Runtime) (hrows : CanMake rt 0 sliceBytes 10)
    (hcells : ∀ i, i < 10 → CanMake rt (i + 1) boolBytes 20) (draws : Nat → Nat) :
    main rt draws = mainFrom (madeGrid draws 10 20) := by
  unfold main
  rw [matrixMake_main rt hrows hcells draws]
  exact ok_bind (madeGrid draws 10 20) mainFrom

/-- The counter line of the first and of the last frame. -/
theorem generationLine_first_last :
    generationLine 0 = "generation 0 of 300 \n" ∧
    generationLine 299 = "generation 299 of 300 \n" := by
  decide

/-- C13: seen as a function of the initial grid `G0`, `main` writes exactly 300
frames and stops; the frame `i`, for `i` from 0 to 299 in order, is `gridRender`
of `G0` advanced `i + 1` times by `matrixNewGen`, followed by the line
`generation i of 300` with `i` in decimal, a blank and a newline; the grid `G0`
itself is not rendered.  The initial grid of `main` is the 10-by-20 grid of
`matrixMake`, on a runtime that can allocate it. -/
theorem main_frames (G0 : Matrix) (H W : Nat) (hR : Rect G0 H W) (rt : Runtime)
    (hrows : CanMake rt 0 sliceBytes 10)
    (hcells : ∀ i, i < 10 → CanMake rt (i + 1) boolBytes 20) :
    (∃ gens : Nat → Matrix, gens 0 = G0 ∧ (∀ n, newGenTimes n G0 = .ok (gens n)) ∧
      mainFrom G0 = .ok ((List.range 300).map fun i =>
        [gridRender (gens (i + 1)), "generation " ++ toString i ++ " of 300 \n"]).flatten ∧
      ((List.range 300).map fun i =>
        [gridRender (gens (i + 1)), "generation " ++ toString i ++ " of 300 \n"]).length
        = 300) ∧
    ("generation " ++ toString (0 : Nat) ++ " of 300 \n" = "generation 0 of 300 \n" ∧
      "generation " ++ toString (299 : Nat) ++ " of 300 \n" = "generation 299 of 300 \n") ∧
    ∀ draws : Nat → Nat, ∃ G, matrixMake rt 10 20 draws = .ok G ∧ Rect G 10 20 ∧
      main rt draws = mainFrom G :=
  ⟨⟨fun n => nextGridTimes H W n G0, rfl, fun n => newGenTimes_eq H W n G0 hR,
    mainFrom_eq G0 H W hR, by rw [List.length_map, List.length_range]⟩,
   generationLine_first_last,
   fun draws => ⟨madeGrid draws 10 20, matrixMake_main rt hrows hcells draws,
    madeGrid_rect draws 10 20, main_eq rt hrows hcells draws⟩⟩

/-- Witness for C13: the driver started on the L-shaped grid. -/
theorem main_frames_witness :
    Rect lGrid 3 3 ∧
    ((∃ gens : Nat → Matrix, gens 0 = lGrid ∧ (∀ n, newGenTimes n lGrid = .ok (gens n)) ∧
      mainFrom lGrid = .ok ((List.range 300).map fun i =>
        [gridRender (gens (i + 1)), "generation " ++ toString i ++ " of 300 \n"]).flatten ∧
      ((List.range 300).map fun i =>
        [gridRender (gens (i + 1)), "generation " ++ toString i ++ " of 300 \n"]).length
        = 300) ∧
    ("generation " ++ toString (0 : Nat) ++ " of 300 \n" = "generation 0 of 300 \n" ∧
      "generation " ++ toString (299 : Nat) ++ " of 300 \n" = "generation 299 of 300 \n") ∧
    ∀ draws : Nat → Nat, ∃ G, matrixMake linuxRuntime 10 20 draws = .ok G ∧ Rect G 10 20 ∧
      main linuxRuntime draws = mainFrom G) :=
  ⟨by decide, main_frames lGrid 3 3 (by decide) linuxRuntime (by decide) (by decide)⟩

/-! ## Grids given by their live cells -/

theorem cell_liveExactly {G : Matrix} {H W : Nat} {P : Int → Int → Prop} (hR : Rect G H W)
    (hL : LiveExactly G H W P) (hsub : ∀ a b, P a b → inGrid H W a b) (a b : Int) :
    cell G a b = true ↔ P a b := by
  rw [cell_rect hR, decide_eq_true_eq]
  constructor
  · rintro ⟨⟨ha, haH, hb, hbW⟩, hal⟩
    have h := (hL a.toNat (by omega) b.toNat (by omega)).mp (by
      rw [Int.toNat_of_nonneg ha, Int.toNat_of_nonneg hb]; exact hal)
    rwa [Int.toNat_of_nonneg ha, Int.toNat_of_nonneg hb] at h
  · intro hP
    obtain ⟨ha, haH, hb, hbW⟩ := hsub a b hP
    refine ⟨⟨ha, haH, hb, hbW⟩, ?_⟩
    have h := (hL a.toNat (by omega) b.toNat (by omega)).mpr (by
      rw [Int.toNat_of_nonneg ha, Int.toNat_of_nonneg hb]; exact hP)
    rwa [Int.toNat_of_nonneg ha, Int.toNat_of_nonneg hb] at h

theorem aliveAt_nextGrid (G : Matrix) (H W i j : Nat) (hi : i < H) (hj : j < W) :
    aliveAt (nextGrid G H W) i j ↔ nextCell G i j = true := by
  simp [aliveAt, nextGrid, List.getElem?_range hi, List.getElem?_range hj]

theorem aliveAt_natCast {G : Matrix} {H W : Nat} (hR : Rect G H W) {i j : Nat}
    (hi : i < H) (hj : j < W) : aliveAt G i j ↔ cell G i j = true := by
  rw [cell_rect hR, decide_eq_true_eq]
  constructor
  · intro h
    exact ⟨⟨by omega, by omega, by omega, by omega⟩, h⟩
  · exact fun h => h.2

/-- Two rectangular grids of the same dimensions with the same live cells are equal. -/
theorem Rect.eq_of_aliveAt {G1 G2 : Matrix} {H W : Nat} (h1 : Rect G1 H W) (h2 : Rect G2 H W)
    (h : ∀ i, i < H → ∀ j, j < W →
      (aliveAt G1 (i : Nat) (j : Nat) ↔ aliveAt G2 (i : Nat) (j : Nat))) :
    G1 = G2 := by
  refine List.ext_getElem (by rw [h1.1, h2.1]) ?_
  intro i hi1 hi2
  have hi : i < H := by rw [← h1.1]; exact hi1
  have hl1 : (G1[i]).length = W := h1.2 _ (List.getElem_mem hi1)
  have hl2 : (G2[i]).length = W := h2.2 _ (List.getElem_mem hi2)
  refine List.ext_getElem (by rw [hl1, hl2]) ?_
  intro j hj1 hj2
  have hj : j < W := by rw [← hl1]; exact hj1
  have hiff := h i hi j hj
  simp only [aliveAt, Int.toNat_ofNat, List.getElem?_eq_getElem hi1, List.getElem?_eq_getElem hi2,
    Option.some_bind, List.getElem?_eq_getElem hj1, List.getElem?_eq_getElem hj2,
    Option.some.injEq] at hiff
  cases h1v : G1[i][j] <;> cases h2v : G2[i][j] <;> simp_all

theorem cellWillLive_ind (c : Bool) (n : Int) :
    cellWillLive c n = true ↔ (ind c = 1 ∧ (n = 2 ∨ n = 3)) ∨ (ind c = 0 ∧ n = 3) := by
  cases c <;> simp [cellWillLive, ind]

theorem nextCell_ind (G : Matrix) (i j : Nat) :
    nextCell G i j = true ↔
      (ind (cell G i j) = 1 ∧
        ((ind (cell G (i - 1) (j - 1)) + ind (cell G (i - 1) j) + ind (cell G (i - 1) (j + 1))
          + ind (cell G i (j - 1)) + ind (cell G i (j + 1)) + ind (cell G (i + 1) (j - 1))
          + ind (cell G (i + 1) j) + ind (cell G (i + 1) (j + 1)) = 2) ∨
         (ind (cell G (i - 1) (j - 1)) + ind (cell G (i - 1) j) + ind (cell G (i - 1) (j + 1))
          + ind (cell G i (j - 1)) + ind (cell G i (j + 1)) + ind (cell G (i + 1) (j - 1))
          + ind (cell G (i + 1) j) + ind (cell G (i + 1) (j + 1)) = 3))) ∨
      (ind (cell G i j) = 0 ∧
        ind (cell G (i - 1) (j - 1)) + ind (cell G (i - 1) j) + ind (cell G (i - 1) (j + 1))
          + ind (cell G i (j - 1)) + ind (cell G i (j + 1)) + ind (cell G (i + 1) (j - 1))
          + ind (cell G (i + 1) j) + ind (cell G (i + 1) (j + 1)) = 3) := by
  rw [nextCell, cellWillLive_ind, countAlive_eq]
  simp only [nearCells, List.countP_cons, List.countP_nil, id, ind]
  omega

theorem ind_cases (b : Bool) (P : Prop) (h : b = true ↔ P) :
    (ind b = 1 ∧ P) ∨ (ind b = 0 ∧ ¬P) := by
  cases b
  · right; exact ⟨rfl, fun hP => Bool.noConfusion (h.mpr hP)⟩
  · left; exact ⟨rfl, h.mp rfl⟩

/-- The indicator of a cell of a grid whose live cells fill the rectangle of
rows `r1 .. r2` and columns `c1 .. c2`, with the ways of being outside kept apart. -/
theorem ind_rectangle {G : Matrix} {r1 r2 c1 c2 : Int}
    (hcell : ∀ a b, cell G a b = true ↔ (r1 ≤ a ∧ a ≤ r2) ∧ (c1 ≤ b ∧ b ≤ c2)) (a b : Int) :
    (ind (cell G a b) = 1 ∧ r1 ≤ a ∧ a ≤ r2 ∧ c1 ≤ b ∧ b ≤ c2) ∨
    (ind (cell G a b) = 0 ∧ a < r1) ∨ (ind (cell G a b) = 0 ∧ r2 < a) ∨
    (ind (cell G a b) = 0 ∧ r1 ≤ a ∧ a ≤ r2 ∧ b < c1) ∨
    (ind (cell G a b) = 0 ∧ r1 ≤ a ∧ a ≤ r2 ∧ c2 < b) := by
  rcases ind_cases _ _ (hcell a b) with ⟨h1, hP⟩ | ⟨h0, hP⟩
  · left; exact ⟨h1, hP.1.1, hP.1.2, hP.2.1, hP.2.2⟩
  · right
    by_cases ha1 : a < r1
    · left; exact ⟨h0, ha1⟩
    · by_cases ha2 : r2 < a
      · right; left; exact ⟨h0, ha2⟩
      · by_cases hb1 : b < c1
        · right; right; left; exact ⟨h0, by omega, by omega, hb1⟩
        · right; right; right
          refine ⟨h0, by omega, by omega, ?_⟩
          by_contra hb2
          exact hP ⟨⟨by omega, by omega⟩, by omega, by omega⟩

/-! ## Blinker -/

theorem nextCell_blinkerRow {G : Matrix} {r c : Nat}
    (hcell : ∀ a b, cell G a b = true ↔ ((r : Int) ≤ a ∧ a ≤ r) ∧ ((c : Int) - 1 ≤ b ∧ b ≤ c + 1))
    (i j : Nat) :
    nextCell G i j = true ↔
      (((r : Int) - 1 ≤ i ∧ (i : Int) ≤ r + 1) ∧ ((c : Int) ≤ j ∧ (j : Int) ≤ c)) := by
  have h := ind_rectangle hcell
  have h0 := h i j
  have h1 := h (i - 1) (j - 1)
  have h2 := h (i - 1) j
  have h3 := h (i - 1) (j + 1)
  have h4 := h i (j - 1)
  have h5 := h i (j + 1)
  have h6 := h (i + 1) (j - 1)
  have h7 := h (i + 1) j
  have h8 := h (i + 1) (j + 1)
  rw [nextCell_ind]
  omega

theorem nextCell_blinkerCol {G : Matrix} {r c : Nat}
    (hcell : ∀ a b, cell G a b = true ↔ ((r : Int) - 1 ≤ a ∧ a ≤ r + 1) ∧ ((c : Int) ≤ b ∧ b ≤ c))
    (i j : Nat) :
    nextCell G i j = true ↔
      (((r : Int) ≤ i ∧ (i : Int) ≤ r) ∧ ((c : Int) - 1 ≤ j ∧ (j : Int) ≤ c + 1)) := by
  have h := ind_rectangle hcell
  have h0 := h i j
  have h1 := h (i - 1) (j - 1)
  have h2 := h (i - 1) j
  have h3 := h (i - 1) (j + 1)
  have h4 := h i (j - 1)
  have h5 := h i (j + 1)
  have h6 := h (i + 1) (j - 1)
  have h7 := h (i + 1) j
  have h8 := h (i + 1) (j + 1)
  rw [nextCell_ind]
  omega

theorem blinkerRow_iff (r c : Nat) (a b : Int) :
    blinkerRow r c a b ↔ ((r : Int) ≤ a ∧ a ≤ r) ∧ ((c : Int) - 1 ≤ b ∧ b ≤ c + 1) := by
  unfold blinkerRow
  omega

theorem blinkerCol_iff (r c : Nat) (a b : Int) :
    blinkerCol r c a b ↔ ((r : Int) - 1 ≤ a ∧ a ≤ r + 1) ∧ ((c : Int) ≤ b ∧ b ≤ c) := by
  unfold blinkerCol
  omega

/-- C14: blinker.  On a rectangular `H`-by-`W` grid whose live cells are exactly
`(r, c-1)`, `(r, c)`, `(r, c+1)`, with `1 ≤ r ≤ H-2` and `1 ≤ c ≤ W-2` (so
`H ≥ 3` and `W ≥ 3`), the next generation is the grid whose live cells are
exactly `(r-1, c)`, `(r, c)`, `(r+1, c)`, and the generation after it is the
grid again. -/
theorem matrixNewGen_blinker (G : Matrix) (H W r c : Nat) (hR : Rect G H W)
    (hr : 1 ≤ r ∧ r + 2 ≤ H) (hc : 1 ≤ c ∧ c + 2 ≤ W)
    (hL : LiveExactly G H W (blinkerRow r c)) :
    ∃ N, matrixNewGen G = .ok N ∧ Rect N H W ∧ LiveExactly N H W (blinkerCol r c) ∧
      matrixNewGen N = .ok G := by
  have hcellG : ∀ a b, cell G a b = true ↔
      ((r : Int) ≤ a ∧ a ≤ r) ∧ ((c : Int) - 1 ≤ b ∧ b ≤ c + 1) := fun a b => by
    rw [cell_liveExactly hR hL (fun a b h => by
      rw [blinkerRow_iff] at h
      unfold inGrid
      omega) a b, blinkerRow_iff]
  have hN : Rect (nextGrid G H W) H W := nextGrid_rect G H W
  have hLN : LiveExactly (nextGrid G H W) H W (blinkerCol r c) := fun i hi j hj => by
    rw [aliveAt_nextGrid G H W i j hi hj, nextCell_blinkerRow hcellG, blinkerCol_iff]
  have hcellN : ∀ a b, cell (nextGrid G H W) a b = true ↔
      ((r : Int) - 1 ≤ a ∧ a ≤ r + 1) ∧ ((c : Int) ≤ b ∧ b ≤ c) := fun a b => by
    rw [cell_liveExactly hN hLN (fun a b h => by
      rw [blinkerCol_iff] at h
      unfold inGrid
      omega) a b, blinkerCol_iff]
  refine ⟨nextGrid G H W, matrixNewGen_rect hR, hN, hLN, ?_⟩
  rw [matrixNewGen_rect hN]
  refine congrArg Except.ok (Rect.eq_of_aliveAt (nextGrid_rect _ H W) hR ?_)
  intro i hi j hj
  rw [aliveAt_nextGrid _ H W i j hi hj, nextCell_blinkerCol hcellN, hL i hi j hj, blinkerRow_iff]

/-- Witness for C14: the horizontal blinker around `(2, 2)` of a 5-by-5 grid. -/
theorem matrixNewGen_blinker_witness :
    (Rect blinkerGrid 5 5 ∧ LiveExactly blinkerGrid 5 5 (blinkerRow 2 2)) ∧
    ∃ N, matrixNewGen blinkerGrid = .ok N ∧ Rect N 5 5 ∧ LiveExactly N 5 5 (blinkerCol 2 2) ∧
      matrixNewGen N = .ok blinkerGrid :=
  ⟨⟨by decide, by decide⟩,
    matrixNewGen_blinker blinkerGrid 5 5 2 2 (by decide) (by decide) (by decide) (by decide)⟩

/-! ## Block -/

theorem nextCell_block {G : Matrix} {r c : Nat}
    (hcell : ∀ a b, cell G a b = true ↔ ((r : Int) ≤ a ∧ a ≤ r + 1) ∧ ((c : Int) ≤ b ∧ b ≤ c + 1))
    (i j : Nat) :
    nextCell G i j = true ↔
      (((r : Int) ≤ i ∧ (i : Int) ≤ r + 1) ∧ ((c : Int) ≤ j ∧ (j : Int) ≤ c + 1)) := by
  have h := ind_rectangle hcell
  have h0 := h i j
  have h1 := h (i - 1) (j - 1)
  have h2 := h (i - 1) j
  have h3 := h (i - 1) (j + 1)
  have h4 := h i (j - 1)
  have h5 := h i (j + 1)
  have h6 := h (i + 1) (j - 1)
  have h7 := h (i + 1) j
  have h8 := h (i + 1) (j + 1)
  rw [nextCell_ind]
  omega

theorem blockCells_iff (r c : Nat) (a b : Int) :
    blockCells r c a b ↔ ((r : Int) ≤ a ∧ a ≤ r + 1) ∧ ((c : Int) ≤ b ∧ b ≤ c + 1) := by
  unfold blockCells
  omega

/-- C17: still life.  A rectangular grid whose live cells are exactly the four
cells `(r, c)`, `(r, c+1)`, `(r+1, c)`, `(r+1, c+1)` of an in-bounds 2-by-2
block, also one that touches the border or a corner, is its own next generation. -/
theorem matrixNewGen_block (G : Matrix) (H W r c : Nat) (hR : Rect G H W)
    (hr : r + 1 < H) (hc : c + 1 < W) (hL : LiveExactly G H W (blockCells r c)) :
    matrixNewGen G = .ok G := by
  have hcellG : ∀ a b, cell G a b = true ↔
      ((r : Int) ≤ a ∧ a ≤ r + 1) ∧ ((c : Int) ≤ b ∧ b ≤ c + 1) := fun a b => by
    rw [cell_liveExactly hR hL (fun a b h => by
      rw [blockCells_iff] at h
      unfold inGrid
      omega) a b, blockCells_iff]
  rw [matrixNewGen_rect hR]
  refine congrArg Except.ok (Rect.eq_of_aliveAt (nextGrid_rect _ H W) hR ?_)
  intro i hi j hj
  rw [aliveAt_nextGrid _ H W i j hi hj, nextCell_block hcellG, hL i hi j hj, blockCells_iff]

/-- Witness for C17: the block in the top-left corner of a 3-by-3 grid. -/
theorem matrixNewGen_block_witness :
    (Rect blockGrid 3 3 ∧ LiveExactly blockGrid 3 3 (blockCells 0 0)) ∧
    matrixNewGen blockGrid = .ok blockGrid :=
  ⟨⟨by decide, by decide⟩,
    matrixNewGen_block blockGrid 3 3 0 0 (by decide) (by decide) (by decide) (by decide)⟩

end GameOfLife
